import Mathlib

/-!
The LimitPolicy admission plugin (plugin/pkg/admission/limitpolicy/admission.go)

A shallow embedding of the `limitpolicy` admission controller and the
properties of it that the specification states.

Conventions of the embedding

* A Go panic is the `Except.error` outcome of a function; a function that
  cannot panic is a plain function.  The outcome of a panicking call keeps
  nothing of what the call had written; the definitions whose names end in
  `After` give the map or block a call leaves in memory, whether it returned
  or panicked.
* A Go map is an association list read at the first entry of a key; the nil
  map is `ResourceList.nil`.  A function that writes into a map it was handed
  returns the map as written.
* Every container of a pod owns its maps, as in a pod the request decoder
  built; no two containers share one.
* `admission.go` names the parameter of `setLimitRangeResource` and the
  quantity package by the same two identifiers (`r`, `resource`); the
  embedding reads each occurrence as the one that type-checks at that place
  (`r.Cmp` of line 140 is the `c.Cmp` of lines 107, 117 and 130).
* The packages `resource`, `api`, `admission` and `apierrors` are not among
  the sources; what the plugin uses of them is modelled here.
-/

deriving instance DecidableEq for Except

namespace LimitPolicy

/-! ## Quantities (k8s.io/apimachinery/pkg/api/resource) -/

/-- Modelled from the spec: `resource.Quantity` of
k8s.io/apimachinery/pkg/api/resource, which is not among the sources.  An
arbitrary-precision decimal number `value * 10 ^ scale`; the zero value of
the Go type is `value = 0, scale = 0`.  The display format and the cached
string of the Go type are left out. -/
structure Quantity where
  value : Int
  scale : Int
  deriving DecidableEq, Repr, Inhabited

namespace Quantity

/-- The zero value `resource.Quantity{}`. -/
def zero : Quantity := ⟨0, 0⟩

/-- The rational number a quantity denotes (used in statements only). -/
def toRat (q : Quantity) : ℚ := (q.value : ℚ) * (10 : ℚ) ^ q.scale

/-- Modelled from the spec: `Quantity.Cmp`, the total order on quantities:
`-1`, `0` or `1` as the receiver is numerically less than, equal to or
greater than the argument.  Both sides are brought to the smaller scale and
compared as integers. -/
def Cmp (q y : Quantity) : Int :=
  let m := min q.scale y.scale
  let a := q.value * 10 ^ (q.scale - m).toNat
  let b := y.value * 10 ^ (y.scale - m).toNat
  if a < b then -1 else if a = b then 0 else 1

/-- The largest `int64`; the smallest is `-maxInt64 - 1`. -/
def maxInt64 : Int := 9223372036854775807

/-- Modelled from the spec: `Quantity.AsInt64`, the value as a 64-bit
integer together with a flag saying whether it is one.  A quantity held at a
negative scale is never reported as an integer, whatever its digits; at
scale zero or above the scaled value is reported when it fits `int64`. -/
def AsInt64 (q : Quantity) : Int × Bool :=
  if q.scale < 0 then (0, false)
  else
    let v := q.value * 10 ^ q.scale.toNat
    if -maxInt64 - 1 ≤ v ∧ v ≤ maxInt64 then (v, true) else (0, false)

end Quantity

/-! ### Parsing quantity literals -/

/-- Value of a run of decimal digits, most significant first. -/
def digitsValue (ds : List Char) : Nat :=
  ds.foldl (fun acc c => 10 * acc + (c.toNat - 48)) 0

/-- Decimal SI suffixes with their power of ten. -/
def decSuffixes : List (String × Int) :=
  [("n", -9), ("u", -6), ("m", -3), ("", 0), ("k", 3), ("M", 6), ("G", 9),
   ("T", 12), ("P", 15), ("E", 18)]

/-- Binary SI suffixes with their power of two. -/
def binSuffixes : List (String × Nat) :=
  [("Ki", 10), ("Mi", 20), ("Gi", 30), ("Ti", 40), ("Pi", 50), ("Ei", 60)]

/-- A decimal exponent suffix: `e` or `E`, an optional sign, one digit or more. -/
def exponentSuffix (s : List Char) : Option Int :=
  match s with
  | c :: rest =>
    if c = 'e' ∨ c = 'E' then
      match rest with
      | '-' :: ds => if ds ≠ [] ∧ ds.all Char.isDigit then some (-(digitsValue ds : Int)) else none
      | '+' :: ds => if ds ≠ [] ∧ ds.all Char.isDigit then some (digitsValue ds : Int) else none
      | ds => if ds ≠ [] ∧ ds.all Char.isDigit then some (digitsValue ds : Int) else none
    else none
  | [] => none

/-- Quantities more precise than `10 ^ -9` are rounded away from zero to
that scale. -/
def roundNano (value scale : Int) : Quantity :=
  if scale < -9 then
    let f : Int := 10 ^ (-9 - scale).toNat
    let a := value.natAbs
    let q : Int := if (a : Int) % f = 0 then (a : Int) / f else (a : Int) / f + 1
    ⟨if value < 0 then -q else q, -9⟩
  else ⟨value, scale⟩

/-- Modelled from the spec: `resource.ParseQuantity`, not among the sources.
The grammar is an optional sign, a decimal number (digits, optionally a
point and more digits) and a suffix: nothing, one of `Ki Mi Gi Ti Pi Ei`,
one of `n u m k M G T P E`, or a decimal exponent.  Anything else is an
error. -/
def ParseQuantity (str : String) : Except String Quantity :=
  let cs := str.toList
  if cs = [] then .error "quantities must match the regular expression" else
  let (neg, cs) : Bool × List Char :=
    match cs with
    | '-' :: r => (true, r)
    | '+' :: r => (false, r)
    | r => (false, r)
  let num := cs.takeWhile Char.isDigit
  let cs := cs.dropWhile Char.isDigit
  let (denom, suffix) : List Char × List Char :=
    match cs with
    | '.' :: r => (r.takeWhile Char.isDigit, r.dropWhile Char.isDigit)
    | r => ([], r)
  let mantissa : Int := digitsValue (num ++ denom)
  let mantissa := if neg then -mantissa else mantissa
  match decSuffixes.lookup (String.mk suffix) with
  | some e => .ok (roundNano mantissa (e - denom.length))
  | none =>
    match binSuffixes.lookup (String.mk suffix) with
    | some e => .ok (roundNano (mantissa * 2 ^ e) (-(denom.length : Int)))
    | none =>
      match exponentSuffix suffix with
      | some e => .ok (roundNano mantissa (e - denom.length))
      | none => .error "unable to parse quantity's suffix"

/-- Modelled from the spec: `resource.MustParse`, which panics where
`ParseQuantity` returns an error. -/
def MustParse (str : String) : Except String Quantity :=
  match ParseQuantity str with
  | .ok q => .ok q
  | .error e => .error ("cannot parse '" ++ str ++ "': " ++ e)


/-! ## API types (k8s.io/kubernetes/pkg/api) -/

/-- Modelled from the spec: `api.ResourceName`, a string naming a resource
kind. -/
abbrev ResourceName := String

/-- The kind `api.ResourceCPU`. -/
def ResourceCPU : ResourceName := "cpu"
/-- The kind `api.ResourceMemory`. -/
def ResourceMemory : ResourceName := "memory"
/-- The kind `api.ResourceNvidiaGPU`. -/
def ResourceNvidiaGPU : ResourceName := "alpha.kubernetes.io/nvidia-gpu"

/-- Modelled from the spec: `api.ResourceList`, the Go type
`map[ResourceName]resource.Quantity`.  `nil` is the nil map, `mk` a map that
was made; a key is read at its first entry. -/
inductive ResourceList where
  | nil
  | mk (entries : List (ResourceName × Quantity))
  deriving DecidableEq, Repr, Inhabited

/-- Writing `m[k] = v` into the entries of a map. -/
def insertEntry (k : ResourceName) (v : Quantity) :
    List (ResourceName × Quantity) → List (ResourceName × Quantity)
  | [] => [(k, v)]
  | (k1, v1) :: rest => if k1 = k then (k, v) :: rest else (k1, v1) :: insertEntry k v rest

namespace ResourceList

/-- Go `len(m)`; only its being zero is ever tested. -/
def len : ResourceList → Nat
  | nil => 0
  | mk entries => entries.length

/-- Go `v, ok := m[k]`: `none` when `ok` is false. -/
def get? : ResourceList → ResourceName → Option Quantity
  | nil, _ => none
  | mk entries, k => entries.lookup k

/-- Go `m[k]`: the zero quantity when the key is absent. -/
def index (m : ResourceList) (k : ResourceName) : Quantity :=
  (m.get? k).getD Quantity.zero

/-- Go `m[k] = v`, which panics on the nil map. -/
def set : ResourceList → ResourceName → Quantity → Except String ResourceList
  | nil, _, _ => .error "assignment to entry in nil map"
  | mk entries, k, v => .ok (mk (insertEntry k v entries))

/-- Modelled from the spec: `(*api.ResourceList).NvidiaGPU`, the accelerator
entry of the list, or the zero quantity when the list has none. -/
def NvidiaGPU (self : ResourceList) : Quantity :=
  match self.get? ResourceNvidiaGPU with
  | some val => val
  | none => Quantity.zero

end ResourceList

/-- Modelled from the spec: `api.ResourceRequirements`, the resource block
of one container. -/
structure ResourceRequirements where
  Limits : ResourceList
  Requests : ResourceList
  deriving DecidableEq, Repr, Inhabited

/-- Modelled from the spec: `api.Container`; of its fields the name, the
image and the resource block are kept. -/
structure Container where
  Name : String
  Image : String
  Resources : ResourceRequirements
  deriving DecidableEq, Repr, Inhabited

/-- Modelled from the spec: `api.PodSpec`, the two container sequences. -/
structure PodSpec where
  InitContainers : List Container
  Containers : List Container
  deriving DecidableEq, Repr, Inhabited

/-- Modelled from the spec: `api.Pod`.  Every container owns its two maps,
as in an object the request decoder built. -/
structure Pod where
  Name : String
  Namespace : String
  Spec : PodSpec
  deriving DecidableEq, Repr, Inhabited

/-! ## Admission types (k8s.io/apiserver/pkg/admission) -/

/-- Modelled from the spec: `admission.Operation`, a string. -/
abbrev Operation := String

/-- The operation `admission.Create`. -/
def Create : Operation := "CREATE"
/-- The operation `admission.Update`. -/
def Update : Operation := "UPDATE"
/-- The operation `admission.Delete`. -/
def Delete : Operation := "DELETE"
/-- The operation `admission.Connect`. -/
def Connect : Operation := "CONNECT"

/-- Modelled from the spec: `schema.GroupResource`. -/
structure GroupResource where
  Group : String
  Resource : String
  deriving DecidableEq, Repr, Inhabited

/-- Modelled from the spec: `schema.GroupVersionResource`. -/
structure GroupVersionResource where
  Group : String
  Version : String
  Resource : String
  deriving DecidableEq, Repr, Inhabited

/-- Modelled from the spec: `GroupVersionResource.GroupResource`, which drops
the version. -/
def GroupVersionResource.GroupResource (gvr : GroupVersionResource) : GroupResource :=
  ⟨gvr.Group, gvr.Resource⟩

/-- Modelled from the spec: `api.Resource`, the resource in the core API
group, whose name is the empty string. -/
def Resource (resource : String) : GroupResource := ⟨"", resource⟩

/-- Modelled from the spec: the `runtime.Object` a request carries: a pod,
an object of any other type, or no object. -/
inductive Object where
  | pod (p : Pod)
  | other (kind : String) (content : String)
  | absent
  deriving DecidableEq, Repr, Inhabited

/-- Modelled from the spec: what `admission.Attributes` answers about one
request. -/
structure Attributes where
  Name : String
  Namespace : String
  Resource : GroupVersionResource
  Subresource : String
  Operation : Operation
  Object : Object
  deriving DecidableEq, Repr, Inhabited

/-- Modelled from the spec: `errors.StatusError`, the HTTP code, the reason
and the message of an API error. -/
structure StatusError where
  Code : Nat
  Reason : String
  Message : String
  deriving DecidableEq, Repr, Inhabited

/-- Modelled from the spec: `apierrors.NewBadRequest`, the error of a
malformed request (HTTP 400). -/
def NewBadRequest (reason : String) : StatusError := ⟨400, "BadRequest", reason⟩

/-! ## admission.go -/

/-- The plugin: `type plugin struct { *admission.Handler }`; the handler is
the list of operations it was made for. -/
structure plugin where
  Handler : List Operation
  deriving DecidableEq, Repr, Inhabited

/-- Lines 41-45: `NewLimitPolicyPlugin`. -/
def NewLimitPolicyPlugin : plugin := { Handler := [Create] }

/-- Lines 49-61: `checkUpdateLimitResource`.  The loop over
`pod.Spec.Containers` sets `isNeed` and breaks at the first container whose
accelerator limit is an integer above zero. -/
def checkUpdateLimitResource (pod : Pod) : Bool :=
  pod.Spec.Containers.any fun container =>
    let r := container.Resources.Limits.NvidiaGPU.AsInt64
    r.2 && decide (r.1 > 0)

/-- Lines 64-73: `checkSetResource`; the argument is a pointer, `none` for
nil. -/
def checkSetResource (r : Option ResourceRequirements) : Bool :=
  match r with
  | some r => decide (r.Limits.len ≠ 0 ∨ r.Requests.len ≠ 0)
  | none => false

/-- Lines 77-83. -/
def cpuRangeLimits : Except String (List Quantity) := ["1", "2", "4", "8"].mapM MustParse
/-- Lines 84-89. -/
def cpuRangeRequests : Except String (List Quantity) := ["1", "2", "4", "8"].mapM MustParse
/-- Lines 91-96. -/
def memRangeLimits : Except String (List Quantity) :=
  ["128", "256", "512", "1Gi"].mapM MustParse
/-- Lines 97-102. -/
def memRangeRequests : Except String (List Quantity) :=
  ["128", "256", "512", "1Gi"].mapM MustParse

/-- The loop of lines 106-111 (and 116-121, 129-134, 139-144): the first
tier `c` with `c.Cmp(m[k]) == 1` is written to `m[k]`, and the loop is
left. -/
def rangeLoop (ladder : List Quantity) (m : ResourceList) (k : ResourceName) :
    Except String ResourceList :=
  match ladder with
  | [] => .ok m
  | c :: rest => if c.Cmp (m.index k) = 1 then m.set k c else rangeLoop rest m k

/-- One `if _, ok := m[k]; ok { loop } else { m[k] = MustParse(dflt) }` of
lines 105-114, 115-124, 128-137 and 138-147. -/
def setKind (ladder : List Quantity) (dflt : String) (m : ResourceList) (k : ResourceName) :
    Except String ResourceList :=
  match m.get? k with
  | some _ => rangeLoop ladder m k
  | none => do
    let d ← MustParse dflt
    m.set k d

/-- Lines 104-125 for the limits, 127-148 for the requests: a map with an
entry gets its CPU and then its memory settled. -/
def setList (cpuRange memRange : List Quantity) (m : ResourceList) : Except String ResourceList :=
  if m.len ≠ 0 then do
    let m1 ← setKind cpuRange "1" m ResourceCPU
    setKind memRange "128Mem" m1 ResourceMemory
  else .ok m

/-- Lines 76-149: `setLimitRangeResource`.  The maps are written in place,
so the block returned is the block the caller holds afterwards. -/
def setLimitRangeResource (r : ResourceRequirements) : Except String ResourceRequirements := do
  let cpuLimits ← cpuRangeLimits
  let cpuRequests ← cpuRangeRequests
  let memLimits ← memRangeLimits
  let memRequests ← memRangeRequests
  let limits ← setList cpuLimits memLimits r.Limits
  let requests ← setList cpuRequests memRequests r.Requests
  pure { Limits := limits, Requests := requests }

/-- Lines 152-177: `setDefaultRangeResource`, which assigns two new maps to
the fields of the block it is given. -/
def setDefaultRangeResource (_resource : ResourceRequirements) :
    Except String ResourceRequirements := do
  let defaultLimitResource := ResourceList.mk
    [(ResourceCPU, ← MustParse "1"), (ResourceMemory, ← MustParse "128Mem"),
     (ResourceNvidiaGPU, ← MustParse "1")]
  let defaultRequestResource := ResourceList.mk
    [(ResourceCPU, ← MustParse "1"), (ResourceMemory, ← MustParse "128Mem"),
     (ResourceNvidiaGPU, ← MustParse "1")]
  pure { Limits := defaultLimitResource, Requests := defaultRequestResource }

/-- The body of both loops of `updateLimitResource` (lines 188-192 and
196-200) on the loop variable `c`, a copy of the container.  The ladder
branch writes into the maps, which the copy shares with the container; the
default branch assigns to the fields of the copy, which the container does
not see. -/
def updateContainer (c : Container) : Except String Container :=
  if checkSetResource (some c.Resources) then do
    let r ← setLimitRangeResource c.Resources
    pure { c with Resources := r }
  else do
    let _ ← setDefaultRangeResource c.Resources
    pure c

/-- Lines 185-202: `updateLimitResource`.  Both loops range over
`pod.Spec.InitContainers`. -/
def updateLimitResource (pod : Pod) : Except String Pod := do
  let first ← pod.Spec.InitContainers.mapM updateContainer
  let second ← first.mapM updateContainer
  pure { pod with Spec := { pod.Spec with InitContainers := second } }

/-- What a call of `Admit` that returned leaves: the error returned (`none`
for nil) and the object of the request. -/
structure Admitted where
  err : Option StatusError
  object : Object
  deriving DecidableEq, Repr, Inhabited

/-- Lines 205-227: `plugin.Admit`. -/
def plugin.Admit (_p : plugin) (a : Attributes) : Except String Admitted :=
  if a.Subresource.length ≠ 0 ∨ a.Resource.GroupResource ≠ Resource "pods" then
    .ok ⟨none, a.Object⟩
  else if a.Operation ≠ Create then
    .ok ⟨none, a.Object⟩
  else
    match a.Object with
    | .pod pod =>
      if !checkUpdateLimitResource pod then .ok ⟨none, .pod pod⟩
      else do
        let pod ← updateLimitResource pod
        pure ⟨none, .pod pod⟩
    | obj =>
      .ok ⟨some (NewBadRequest
        "Resource was marked with kind Pod but was unable to be converted"), obj⟩

/-- Lines 229-234: `plugin.Handles`. -/
def plugin.Handles (_p : plugin) (operation : Operation) : Bool :=
  if operation = Create then true else false

/-! ## Notions the statements use -/

/-- The CPU ladder as the four tables of lines 77-89 parse it. -/
def cpuTiers : List Quantity := [⟨1, 0⟩, ⟨2, 0⟩, ⟨4, 0⟩, ⟨8, 0⟩]

/-- The memory ladder as the tables of lines 91-102 parse it (`1Gi` is
`2 ^ 30`). -/
def memTiers : List Quantity := [⟨128, 0⟩, ⟨256, 0⟩, ⟨512, 0⟩, ⟨1073741824, 0⟩]

/-- A ladder table: it parses, has a tier, and each tier compares below
every later one. -/
def IsLadder (table : Except String (List Quantity)) : Prop :=
  ∃ tiers, table = .ok tiers ∧ tiers ≠ [] ∧
    tiers.Pairwise (fun a b => a.Cmp b = -1) ∧ tiers.Nodup

/-- The tier `c` is the smallest tier of `ladder` strictly greater than
`v`. -/
def IsCeiling (ladder : List Quantity) (v c : Quantity) : Prop :=
  c ∈ ladder ∧ c.Cmp v = 1 ∧ ∀ t ∈ ladder, t.Cmp v = 1 → t.Cmp c ≠ -1

instance (ladder : List Quantity) (v c : Quantity) : Decidable (IsCeiling ladder v c) := by
  unfold IsCeiling
  infer_instance

/-- The value is one `AsInt64` reports as an integer above zero: it is held
at a scale of zero or more, is positive, and fits `int64` once scaled. -/
def Quantity.isPositiveInt64 (v : Quantity) : Prop :=
  0 ≤ v.scale ∧ 0 < v.value ∧ v.value * 10 ^ v.scale.toNat ≤ Quantity.maxInt64

/-- The number the quantity denotes is a whole number that fits `int64`,
however the quantity is held. -/
def Quantity.representableInt64 (v : Quantity) : Prop :=
  ∃ n : Int, -Quantity.maxInt64 - 1 ≤ n ∧ n ≤ Quantity.maxInt64 ∧ v.toRat = n

/-- The request is one `Admit` acts on: no sub-resource, the resource
`pods` of the core group, the operation `Create`. -/
def Applicable (a : Attributes) : Prop :=
  a.Subresource = "" ∧ a.Resource.GroupResource = Resource "pods" ∧ a.Operation = Create

instance (a : Attributes) : Decidable (Applicable a) := by
  unfold Applicable
  infer_instance

/-- The object of the request is a pod. -/
def Object.isPod : Object → Bool
  | .pod _ => true
  | _ => false

/-- The container has an entry of the kind in its limits or its requests. -/
def Container.declares (c : Container) (k : ResourceName) : Prop :=
  (c.Resources.Limits.get? k).isSome ∨ (c.Resources.Requests.get? k).isSome

instance (c : Container) (k : ResourceName) : Decidable (c.declares k) := by
  unfold Container.declares
  infer_instance

/-- The container declares a value of the kind that is not zero. -/
def Container.declaresNonZero (c : Container) (k : ResourceName) : Prop :=
  ∃ v, (c.Resources.Limits.get? k = some v ∨ c.Resources.Requests.get? k = some v) ∧
    v.Cmp Quantity.zero ≠ 0

/-! ## Example requests -/

/-- A create request on `pods` carrying the object, as `TestAdmit` builds
it. -/
def createPods (obj : Object) : Attributes :=
  { Name := "test", Namespace := "test", Resource := ⟨"", "version", "pods"⟩,
    Subresource := "", Operation := Create, Object := obj }

/-- The declaration `{cpu: 1.5, gpu: 1}`. -/
def cpuGpuList : ResourceList :=
  .mk [(ResourceCPU, ⟨15, -1⟩), (ResourceNvidiaGPU, ⟨1, 0⟩)]

/-- A pod with one regular container declaring `{cpu: 1.5, gpu: 1}` in its
requests and its limits. -/
def podRegular : Pod :=
  { Name := "test", Namespace := "test",
    Spec := { InitContainers := [],
              Containers := [⟨"c0", "foo:V0", ⟨cpuGpuList, cpuGpuList⟩⟩] } }

/-- A pod whose only container is an init container with an accelerator
limit of 1. -/
def podInitOnly : Pod :=
  { Name := "test", Namespace := "test",
    Spec := { InitContainers :=
                [⟨"init", "foo:V0", ⟨.mk [(ResourceNvidiaGPU, ⟨1, 0⟩)], .nil⟩⟩],
              Containers := [] } }

/-- A pod with one regular container that declares CPU only. -/
def podCpuOnly : Pod :=
  { Name := "test", Namespace := "test",
    Spec := { InitContainers := [],
              Containers := [⟨"c0", "foo:V0", ⟨.mk [(ResourceCPU, ⟨1, 0⟩)], .nil⟩⟩] } }

/-- A block whose limits declare `cpu: 1.5` and nothing else, and whose
requests declare `cpu: 1.5` and `memory: 128`. -/
def blockCpuOnly : ResourceRequirements :=
  { Limits := .mk [(ResourceCPU, ⟨15, -1⟩)],
    Requests := .mk [(ResourceCPU, ⟨15, -1⟩), (ResourceMemory, ⟨128, 0⟩)] }

/-- A pod whose one regular container declares an accelerator request of 1
and no limits. -/
def podRequestOnly : Pod :=
  { Name := "test", Namespace := "test",
    Spec := { InitContainers := [],
              Containers :=
                [⟨"c0", "foo:V0", ⟨.nil, .mk [(ResourceNvidiaGPU, ⟨1, 0⟩)]⟩⟩] } }

/-- A pod whose one regular container declares an accelerator limit of
`500m`, half a unit. -/
def podHalfGpu : Pod :=
  { Name := "test", Namespace := "test",
    Spec := { InitContainers := [],
              Containers :=
                [⟨"c0", "foo:V0", ⟨.mk [(ResourceNvidiaGPU, ⟨500, -3⟩)], .nil⟩⟩] } }

/-- A block whose limits declare `cpu: 2` and `memory: 128`. -/
def blockOnTier : ResourceRequirements :=
  { Limits := .mk [(ResourceCPU, ⟨2, 0⟩), (ResourceMemory, ⟨128, 0⟩)], Requests := .nil }

/-- A pod with two regular containers: one declaring `{cpu: 1.5, gpu: 1}`,
one declaring no requests and no limits. -/
def podBareRegular : Pod :=
  { Name := "test", Namespace := "test",
    Spec := { InitContainers := [],
              Containers := [⟨"c0", "foo:V0", ⟨cpuGpuList, cpuGpuList⟩⟩,
                             ⟨"c1", "foo:V1", ⟨.nil, .nil⟩⟩] } }

/-- A pod with a regular container declaring `{cpu: 1.5, gpu: 1}` and an
init container declaring no requests and no limits. -/
def podBareInit : Pod :=
  { Name := "test", Namespace := "test",
    Spec := { InitContainers := [⟨"init", "foo:V1", ⟨.nil, .nil⟩⟩],
              Containers := [⟨"c0", "foo:V0", ⟨cpuGpuList, cpuGpuList⟩⟩] } }

/-- A pod with a regular container declaring `{cpu: 1.5, gpu: 1}` and an
init container whose limits declare `cpu: 1.5` and `memory: 128`. -/
def podInitLadder : Pod :=
  { Name := "test", Namespace := "test",
    Spec := { InitContainers :=
                [⟨"init", "foo:V1",
                  ⟨.mk [(ResourceCPU, ⟨15, -1⟩), (ResourceMemory, ⟨128, 0⟩)], .nil⟩⟩],
              Containers := [⟨"c0", "foo:V0", ⟨cpuGpuList, cpuGpuList⟩⟩] } }

/-- A block whose limits declare `cpu: 1` and `memory: 128` and whose requests
are nil. -/
def blockLimitsOnly : ResourceRequirements :=
  { Limits := .mk [(ResourceCPU, ⟨1, 0⟩), (ResourceMemory, ⟨128, 0⟩)], Requests := .nil }

/-- A block whose limits declare `cpu: 16`, above every CPU tier, and
`memory: 128`. -/
def blockOverLadder : ResourceRequirements :=
  { Limits := .mk [(ResourceCPU, ⟨16, 0⟩), (ResourceMemory, ⟨128, 0⟩)], Requests := .nil }

/-- The block of the second case of `TestAdmit`, with a memory the quantity
grammar admits: `cpu: 1`, `memory: 512`, `gpu: 2` in requests and limits. -/
def blockGpuTwo : ResourceRequirements :=
  { Limits := .mk [(ResourceCPU, ⟨1, 0⟩), (ResourceMemory, ⟨512, 0⟩),
                   (ResourceNvidiaGPU, ⟨2, 0⟩)],
    Requests := .mk [(ResourceCPU, ⟨1, 0⟩), (ResourceMemory, ⟨512, 0⟩),
                     (ResourceNvidiaGPU, ⟨2, 0⟩)] }

/-- The block `blockGpuTwo` with other CPU values: `cpu: 3` in the limits
and `cpu: 1.5` in the requests. -/
def blockGpuTwoOtherCpu : ResourceRequirements :=
  { Limits := .mk [(ResourceCPU, ⟨3, 0⟩), (ResourceMemory, ⟨512, 0⟩),
                   (ResourceNvidiaGPU, ⟨2, 0⟩)],
    Requests := .mk [(ResourceCPU, ⟨15, -1⟩), (ResourceMemory, ⟨512, 0⟩),
                     (ResourceNvidiaGPU, ⟨2, 0⟩)] }

/-- A block whose limits declare `cpu: 8`, the top CPU tier, `memory: 2Gi`,
above the top memory tier, and a kind the policy does not govern. -/
def blockTop : ResourceRequirements :=
  { Limits := .mk [(ResourceCPU, ⟨8, 0⟩), (ResourceMemory, ⟨2147483648, 0⟩),
                   ("storage", ⟨5, 0⟩)],
    Requests := .nil }

/-- A block whose limits declare `cpu: 0.5` and nothing else, and whose
requests declare `cpu: 0.5` and `memory: 128`. -/
def blockHalfCpu : ResourceRequirements :=
  { Limits := .mk [(ResourceCPU, ⟨5, -1⟩)],
    Requests := .mk [(ResourceCPU, ⟨5, -1⟩), (ResourceMemory, ⟨128, 0⟩)] }

/-- The block of a container that asks for one accelerator and nothing
else: limits `gpu: 1`, requests nil. -/
def blockGpuOnly : ResourceRequirements :=
  { Limits := .mk [(ResourceNvidiaGPU, ⟨1, 0⟩)], Requests := .nil }

/-- The block of a container that declares nothing: both maps nil. -/
def blockBare : ResourceRequirements := { Limits := .nil, Requests := .nil }

/-- A block whose CPU request `1.5` is below its CPU limit `3`, and whose
memory request `100` is below its memory limit `300`. -/
def blockOrdered : ResourceRequirements :=
  { Limits := .mk [(ResourceCPU, ⟨3, 0⟩), (ResourceMemory, ⟨300, 0⟩)],
    Requests := .mk [(ResourceCPU, ⟨15, -1⟩), (ResourceMemory, ⟨100, 0⟩)] }

/-- The nine quantity literals of `admission.go` other than `128Mem`: the
tiers of lines 78-101 and the CPU and accelerator default `1`. -/
def tierLiterals : List String := ["1", "2", "4", "8", "128", "256", "512", "1Gi"]

/-- A block whose limits declare `cpu: 2` and nothing else, and whose
requests declare `cpu: 2` and `memory: 128`. -/
def blockTierRequest : ResourceRequirements :=
  { Limits := .mk [(ResourceCPU, ⟨2, 0⟩)],
    Requests := .mk [(ResourceCPU, ⟨2, 0⟩), (ResourceMemory, ⟨128, 0⟩)] }

/-- A pod whose one regular container declares an accelerator limit of
`1000m`: one whole unit, written in thousandths. -/
def podWholeMilliGpu : Pod :=
  { Name := "test", Namespace := "test",
    Spec := { InitContainers := [],
              Containers :=
                [⟨"c0", "foo:V0", ⟨.mk [(ResourceNvidiaGPU, ⟨1000, -3⟩)], .nil⟩⟩] } }

/-! ## The block a call leaves in memory -/

/-- The value the ladder walk leaves where `v` was declared: the first tier
of the ladder that compares above `v`, or `v` when there is none. -/
def raise (ladder : List Quantity) (v : Quantity) : Quantity :=
  (ladder.find? (fun c => decide (c.Cmp v = 1))).getD v

/-- The map `setKind` leaves in memory, whether it returned or panicked.  A
panic is raised by `MustParse` or by the write into the nil map, in either
case before anything was written, so the map is then as it was. -/
def setKindAfter (ladder : List Quantity) (dflt : String) (m : ResourceList)
    (k : ResourceName) : ResourceList :=
  match setKind ladder dflt m k with
  | .ok out => out
  | .error _ => m

/-- The map lines 104-125 (127-148) leave in memory, whether they returned
or panicked: a panic of the memory step leaves what the CPU step wrote. -/
def setListAfter (cpuRange memRange : List Quantity) (m : ResourceList) : ResourceList :=
  if m.len ≠ 0 then
    match setKind cpuRange "1" m ResourceCPU with
    | .ok m1 => setKindAfter memRange "128Mem" m1 ResourceMemory
    | .error _ => m
  else m

/-- The block `setLimitRangeResource` leaves in memory, whether it returned
or panicked: a panic while the limits are settled leaves the requests as
they were. -/
def setLimitRangeResourceAfter (r : ResourceRequirements) : ResourceRequirements :=
  match cpuRangeLimits, cpuRangeRequests, memRangeLimits, memRangeRequests with
  | .ok cpuLimits, .ok cpuRequests, .ok memLimits, .ok memRequests =>
    match setList cpuLimits memLimits r.Limits with
    | .ok limits =>
      { Limits := limits, Requests := setListAfter cpuRequests memRequests r.Requests }
    | .error _ => { Limits := setListAfter cpuLimits memLimits r.Limits, Requests := r.Requests }
  | _, _, _, _ => r

/-- The block `setDefaultRangeResource` leaves in memory, whether it
returned or panicked.  The literals of the second map are those of the
first, so a panic is raised while the first map is built, before either
field is assigned. -/
def setDefaultRangeResourceAfter (resource : ResourceRequirements) : ResourceRequirements :=
  match setDefaultRangeResource resource with
  | .ok out => out
  | .error _ => resource

/-- Normalizing a block: the branch of lines 188-192 on the block itself,
`setLimitRangeResource` when `checkSetResource` is true and
`setDefaultRangeResource` otherwise. -/
def normalizeBlock (r : ResourceRequirements) : Except String ResourceRequirements :=
  if checkSetResource (some r) then setLimitRangeResource r else setDefaultRangeResource r

/-- The block `normalizeBlock` leaves in memory, whether it returned or
panicked. -/
def normalizeBlockAfter (r : ResourceRequirements) : ResourceRequirements :=
  if checkSetResource (some r) then setLimitRangeResourceAfter r
  else setDefaultRangeResourceAfter r

/-- The map has an entry. -/
def ResourceList.populated (m : ResourceList) : Prop := m.len ≠ 0

instance (m : ResourceList) : Decidable m.populated := by
  unfold ResourceList.populated
  infer_instance

/-- Every populated map of the block has a memory entry: the blocks on which
`setLimitRangeResource` returns. -/
def ResourceRequirements.declaresMemory (r : ResourceRequirements) : Prop :=
  (r.Limits.populated → (r.Limits.get? ResourceMemory).isSome) ∧
  (r.Requests.populated → (r.Requests.get? ResourceMemory).isSome)

instance (r : ResourceRequirements) : Decidable r.declaresMemory := by
  unfold ResourceRequirements.declaresMemory
  infer_instance

/-- The two maps have the same keys and the same value at every key other
than `k`. -/
def differOnlyAt (k : ResourceName) (m1 m2 : ResourceList) : Prop :=
  (∀ k1, (m1.get? k1).isSome = (m2.get? k1).isSome) ∧ ∀ k1, k1 ≠ k → m1.get? k1 = m2.get? k1

end LimitPolicy

/-! ## zz_generated.conversion.go (pkg/apis/admissionregistration/v1alpha1)

The generated conversions between the internal package
`admissionregistration` and the package `v1alpha1`.  The two packages
declare the same types with the same fields, which is what lets the
generator cast a value of one to the other through `unsafe.Pointer`; one
structure stands here for the type of both packages, and such a cast is the
value itself.  A conversion function writes into `out` and returns an error:
here it takes `out` and returns it as written, with the error (`none` for
nil).  The `conversion.Scope` argument is used by none of them and is left
out. -/

namespace admissionregistration

/-- A Go slice by its elements: `none` is the nil slice, `some []` the empty
slice `make([]T, 0)`. -/
abbrev Slice (α : Type) := Option (List α)

/-- Modelled from the spec: `metav1.TypeMeta`, not among the sources. -/
structure TypeMeta where
  Kind : String
  APIVersion : String
  deriving DecidableEq, Repr, Inhabited

/-- Modelled from the spec: `metav1.ObjectMeta`, not among the sources; of
its fields the name and the namespace are kept. -/
structure ObjectMeta where
  Name : String
  Namespace : String
  deriving DecidableEq, Repr, Inhabited

/-- Modelled from the spec: `metav1.ListMeta`, not among the sources. -/
structure ListMeta where
  SelfLink : String
  ResourceVersion : String
  deriving DecidableEq, Repr, Inhabited

/-- Modelled from the spec: `ServiceReference`, by the fields lines 302-306
copy. -/
structure ServiceReference where
  Namespace : String
  Name : String
  deriving DecidableEq, Repr, Inhabited

/-- Modelled from the spec: `AdmissionHookClientConfig`, by the fields lines
74-84 write; `CABundle` is a `[]byte`. -/
structure AdmissionHookClientConfig where
  Service : ServiceReference
  CABundle : Slice Nat
  deriving DecidableEq, Repr, Inhabited

/-- Modelled from the spec: `Rule`, by the fields lines 253-258 write. -/
structure Rule where
  APIGroups : Slice String
  APIVersions : Slice String
  Resources : Slice String
  deriving DecidableEq, Repr, Inhabited

/-- Modelled from the spec: `RuleWithOperations`, by the fields lines
278-284 write; the embedded `Rule` is the field `Rule`. -/
structure RuleWithOperations where
  Operations : Slice String
  Rule : Rule
  deriving DecidableEq, Repr, Inhabited

/-- Modelled from the spec: `ExternalAdmissionHook`, by the fields lines
106-114 write; `FailurePolicy` is a pointer, `none` for nil. -/
structure ExternalAdmissionHook where
  Name : String
  ClientConfig : AdmissionHookClientConfig
  Rules : Slice RuleWithOperations
  FailurePolicy : Option String
  deriving DecidableEq, Repr, Inhabited

/-- Modelled from the spec: `ExternalAdmissionHookConfiguration`; lines
132-136 write its `ObjectMeta` and `ExternalAdmissionHooks`. -/
structure ExternalAdmissionHookConfiguration where
  TypeMeta : TypeMeta
  ObjectMeta : ObjectMeta
  ExternalAdmissionHooks : Slice ExternalAdmissionHook
  deriving DecidableEq, Repr, Inhabited

/-- Modelled from the spec: `ExternalAdmissionHookConfigurationList`; lines
154-162 write its `ListMeta` and `Items`. -/
structure ExternalAdmissionHookConfigurationList where
  TypeMeta : TypeMeta
  ListMeta : ListMeta
  Items : Slice ExternalAdmissionHookConfiguration
  deriving DecidableEq, Repr, Inhabited

/-- Modelled from the spec: `Initializer`, by the fields lines 181-186
write. -/
structure Initializer where
  Name : String
  Rules : Slice Rule
  FailurePolicy : Option String
  deriving DecidableEq, Repr, Inhabited

/-- Modelled from the spec: `InitializerConfiguration`; lines 204-208 write
its `ObjectMeta` and `Initializers`. -/
structure InitializerConfiguration where
  TypeMeta : TypeMeta
  ObjectMeta : ObjectMeta
  Initializers : Slice Initializer
  deriving DecidableEq, Repr, Inhabited

/-- Modelled from the spec: `InitializerConfigurationList`; lines 226-234
write its `ListMeta` and `Items`. -/
structure InitializerConfigurationList where
  TypeMeta : TypeMeta
  ListMeta : ListMeta
  Items : Slice InitializerConfiguration
  deriving DecidableEq, Repr, Inhabited

end admissionregistration

namespace v1alpha1

open admissionregistration

/-- Lines 302-306. -/
def autoConvert_admissionregistration_ServiceReference_To_v1alpha1_ServiceReference
    (src out : ServiceReference) : ServiceReference × Option String :=
  ({ out with Namespace := src.Namespace, Name := src.Name }, none)

/-- Lines 309-311. -/
def Convert_admissionregistration_ServiceReference_To_v1alpha1_ServiceReference
    (src out : ServiceReference) : ServiceReference × Option String :=
  autoConvert_admissionregistration_ServiceReference_To_v1alpha1_ServiceReference src out

/-- Lines 74-84: the service is converted, and a nil `CABundle` becomes an
empty slice while any other is cast. -/
def autoConvert_admissionregistration_AdmissionHookClientConfig_To_v1alpha1_AdmissionHookClientConfig
    (src out : AdmissionHookClientConfig) : AdmissionHookClientConfig × Option String :=
  match Convert_admissionregistration_ServiceReference_To_v1alpha1_ServiceReference
      src.Service out.Service with
  | (service, some err) => ({ out with Service := service }, some err)
  | (service, none) =>
    if src.CABundle = none then ({ out with Service := service, CABundle := some [] }, none)
    else ({ out with Service := service, CABundle := src.CABundle }, none)

/-- Lines 87-89. -/
def Convert_admissionregistration_AdmissionHookClientConfig_To_v1alpha1_AdmissionHookClientConfig
    (src out : AdmissionHookClientConfig) : AdmissionHookClientConfig × Option String :=
  autoConvert_admissionregistration_AdmissionHookClientConfig_To_v1alpha1_AdmissionHookClientConfig
    src out

/-- Lines 106-114: the client configuration is converted; the rules and the
failure policy are cast. -/
def autoConvert_admissionregistration_ExternalAdmissionHook_To_v1alpha1_ExternalAdmissionHook
    (src out : ExternalAdmissionHook) : ExternalAdmissionHook × Option String :=
  match Convert_admissionregistration_AdmissionHookClientConfig_To_v1alpha1_AdmissionHookClientConfig
      src.ClientConfig out.ClientConfig with
  | (config, some err) => ({ out with Name := src.Name, ClientConfig := config }, some err)
  | (config, none) =>
    ({ out with Name := src.Name, ClientConfig := config, Rules := src.Rules,
                FailurePolicy := src.FailurePolicy }, none)

/-- Lines 117-119. -/
def Convert_admissionregistration_ExternalAdmissionHook_To_v1alpha1_ExternalAdmissionHook
    (src out : ExternalAdmissionHook) : ExternalAdmissionHook × Option String :=
  autoConvert_admissionregistration_ExternalAdmissionHook_To_v1alpha1_ExternalAdmissionHook src out

/-- Lines 132-136: the slice of hooks is cast as a whole. -/
def autoConvert_admissionregistration_ExternalAdmissionHookConfiguration_To_v1alpha1_ExternalAdmissionHookConfiguration
    (src out : ExternalAdmissionHookConfiguration) :
    ExternalAdmissionHookConfiguration × Option String :=
  ({ out with ObjectMeta := src.ObjectMeta,
              ExternalAdmissionHooks := src.ExternalAdmissionHooks }, none)

/-- Lines 139-141. -/
def Convert_admissionregistration_ExternalAdmissionHookConfiguration_To_v1alpha1_ExternalAdmissionHookConfiguration
    (src out : ExternalAdmissionHookConfiguration) :
    ExternalAdmissionHookConfiguration × Option String :=
  autoConvert_admissionregistration_ExternalAdmissionHookConfiguration_To_v1alpha1_ExternalAdmissionHookConfiguration
    src out

/-- Lines 154-162: nil `Items` become an empty slice, any other are cast. -/
def autoConvert_admissionregistration_ExternalAdmissionHookConfigurationList_To_v1alpha1_ExternalAdmissionHookConfigurationList
    (src out : ExternalAdmissionHookConfigurationList) :
    ExternalAdmissionHookConfigurationList × Option String :=
  if src.Items = none then ({ out with ListMeta := src.ListMeta, Items := some [] }, none)
  else ({ out with ListMeta := src.ListMeta, Items := src.Items }, none)

/-- Lines 165-167. -/
def Convert_admissionregistration_ExternalAdmissionHookConfigurationList_To_v1alpha1_ExternalAdmissionHookConfigurationList
    (src out : ExternalAdmissionHookConfigurationList) :
    ExternalAdmissionHookConfigurationList × Option String :=
  autoConvert_admissionregistration_ExternalAdmissionHookConfigurationList_To_v1alpha1_ExternalAdmissionHookConfigurationList
    src out

/-- Lines 226-234: nil `Items` become an empty slice, any other are cast. -/
def autoConvert_admissionregistration_InitializerConfigurationList_To_v1alpha1_InitializerConfigurationList
    (src out : InitializerConfigurationList) : InitializerConfigurationList × Option String :=
  if src.Items = none then ({ out with ListMeta := src.ListMeta, Items := some [] }, none)
  else ({ out with ListMeta := src.ListMeta, Items := src.Items }, none)

/-- Lines 237-239. -/
def Convert_admissionregistration_InitializerConfigurationList_To_v1alpha1_InitializerConfigurationList
    (src out : InitializerConfigurationList) : InitializerConfigurationList × Option String :=
  autoConvert_admissionregistration_InitializerConfigurationList_To_v1alpha1_InitializerConfigurationList
    src out

/-- An internal hook whose `CABundle` is nil. -/
def hookNilBundle : ExternalAdmissionHook :=
  { Name := "hook", ClientConfig := { Service := ⟨"default", "svc"⟩, CABundle := none },
    Rules := none, FailurePolicy := none }

/-- An internal hook whose `CABundle` holds three bytes. -/
def hookWithBundle : ExternalAdmissionHook :=
  { Name := "hook2", ClientConfig := { Service := ⟨"default", "svc"⟩, CABundle := some [1, 2, 3] },
    Rules := some [], FailurePolicy := some "Ignore" }

/-- An internal configuration holding the two hooks. -/
def configTwoHooks : ExternalAdmissionHookConfiguration :=
  { TypeMeta := ⟨"", ""⟩, ObjectMeta := ⟨"config", ""⟩,
    ExternalAdmissionHooks := some [hookNilBundle, hookWithBundle] }

/-- An internal list whose one configuration holds the two hooks. -/
def listTwoHooks : ExternalAdmissionHookConfigurationList :=
  { TypeMeta := ⟨"", ""⟩, ListMeta := ⟨"", "1"⟩, Items := some [configTwoHooks] }

end v1alpha1

namespace LimitPolicy

/-! ## Lemmas on quantities -/

namespace Quantity

theorem scaled_toRat (q : Quantity) (m : Int) (h : m ≤ q.scale) :
    ((q.value * 10 ^ (q.scale - m).toNat : Int) : ℚ) * (10 : ℚ) ^ m = q.toRat := by
  have hn : (((q.scale - m).toNat : Nat) : Int) = q.scale - m := Int.toNat_of_nonneg (by omega)
  have h10 : (10 : ℚ) ≠ 0 := by norm_num
  unfold toRat
  push_cast
  rw [mul_assoc]
  congr 1
  rw [← zpow_natCast, hn, ← zpow_add₀ h10]
  congr 1
  omega

theorem Cmp_cases (a b : Quantity) :
    (a.Cmp b = -1 ∧ a.toRat < b.toRat) ∨ (a.Cmp b = 0 ∧ a.toRat = b.toRat) ∨
      (a.Cmp b = 1 ∧ b.toRat < a.toRat) := by
  have ha := scaled_toRat a (min a.scale b.scale) (min_le_left _ _)
  have hb := scaled_toRat b (min a.scale b.scale) (min_le_right _ _)
  have hpos : (0 : ℚ) < (10 : ℚ) ^ (min a.scale b.scale) := zpow_pos (by norm_num) _
  simp only [Cmp]
  rw [← ha, ← hb]
  rcases lt_trichotomy (a.value * 10 ^ (a.scale - min a.scale b.scale).toNat)
      (b.value * 10 ^ (b.scale - min a.scale b.scale).toNat) with hlt | heq | hgt
  · left
    refine ⟨by simp [hlt], ?_⟩
    exact mul_lt_mul_of_pos_right (by exact_mod_cast hlt) hpos
  · right; left
    refine ⟨by simp [heq], ?_⟩
    rw [heq]
  · right; right
    refine ⟨?_, mul_lt_mul_of_pos_right (by exact_mod_cast hgt) hpos⟩
    rw [if_neg (by omega), if_neg (by omega)]

theorem Cmp_eq_one_iff (a b : Quantity) : a.Cmp b = 1 ↔ b.toRat < a.toRat := by
  rcases Cmp_cases a b with ⟨h, hr⟩ | ⟨h, hr⟩ | ⟨h, hr⟩
  · simp only [h]; constructor
    · intro h1; omega
    · intro h1; linarith
  · simp only [h]; constructor
    · intro h1; omega
    · intro h1; linarith
  · simp [h, hr]

theorem Cmp_eq_zero_iff (a b : Quantity) : a.Cmp b = 0 ↔ a.toRat = b.toRat := by
  rcases Cmp_cases a b with ⟨h, hr⟩ | ⟨h, hr⟩ | ⟨h, hr⟩
  · simp only [h]; constructor
    · intro h1; omega
    · intro h1; linarith
  · simp [h, hr]
  · simp only [h]; constructor
    · intro h1; omega
    · intro h1; linarith

theorem Cmp_eq_neg_one_iff (a b : Quantity) : a.Cmp b = -1 ↔ a.toRat < b.toRat := by
  rcases Cmp_cases a b with ⟨h, hr⟩ | ⟨h, hr⟩ | ⟨h, hr⟩
  · simp [h, hr]
  · simp only [h]; constructor
    · intro h1; omega
    · intro h1; linarith
  · simp only [h]; constructor
    · intro h1; omega
    · intro h1; linarith

end Quantity

/-! ## Lemmas on strings, maps and the trigger -/

theorem string_length_eq_zero (s : String) : s.length = 0 ↔ s = "" := by
  cases s with
  | mk data =>
    constructor
    · intro h
      have hd : data = [] := List.length_eq_zero.mp h
      subst hd
      rfl
    · intro h
      rw [h]
      rfl

theorem NvidiaGPU_of_get?_none (m : ResourceList) (h : m.get? ResourceNvidiaGPU = none) :
    m.NvidiaGPU = Quantity.zero := by
  simp [ResourceList.NvidiaGPU, h]

theorem AsInt64_zero : Quantity.zero.AsInt64 = (0, true) := by decide

theorem isPositiveInt64_iff (v : Quantity) :
    v.isPositiveInt64 ↔ (v.AsInt64.2 = true ∧ 0 < v.AsInt64.1) := by
  have hp : (0 : Int) < 10 ^ v.scale.toNat := by positivity
  have hmax : (0 : Int) ≤ Quantity.maxInt64 := by decide
  unfold Quantity.isPositiveInt64 Quantity.AsInt64
  by_cases hs : v.scale < 0
  · rw [if_pos hs]
    constructor
    · rintro ⟨h0, _, _⟩
      omega
    · rintro ⟨h, _⟩
      cases h
  · rw [if_neg hs]
    by_cases hr : -Quantity.maxInt64 - 1 ≤ v.value * 10 ^ v.scale.toNat ∧
        v.value * 10 ^ v.scale.toNat ≤ Quantity.maxInt64
    · rw [if_pos hr]
      constructor
      · rintro ⟨_, h1, _⟩
        exact ⟨rfl, mul_pos h1 hp⟩
      · rintro ⟨_, h⟩
        exact ⟨by omega, pos_of_mul_pos_left h hp.le, hr.2⟩
    · rw [if_neg hr]
      constructor
      · rintro ⟨_, h1, h2⟩
        have := mul_pos h1 hp
        exact absurd ⟨by omega, h2⟩ hr
      · rintro ⟨h, _⟩
        cases h

theorem checkUpdateLimitResource_false_of_limits (pod : Pod)
    (h : ∀ c ∈ pod.Spec.Containers, c.Resources.Limits.get? ResourceNvidiaGPU = none) :
    checkUpdateLimitResource pod = false := by
  unfold checkUpdateLimitResource
  rw [List.any_eq_false]
  intro c hc
  rw [NvidiaGPU_of_get?_none _ (h c hc), AsInt64_zero]
  simp

theorem Admit_of_not_applicable (p : plugin) (a : Attributes) (h : ¬ Applicable a) :
    p.Admit a = .ok ⟨none, a.Object⟩ := by
  unfold plugin.Admit
  by_cases h1 : a.Subresource.length ≠ 0 ∨ a.Resource.GroupResource ≠ Resource "pods"
  · rw [if_pos h1]
  · rw [if_neg h1]
    by_cases h2 : a.Operation ≠ Create
    · rw [if_pos h2]
    · exfalso
      apply h
      simp only [not_or, not_not] at h1
      exact ⟨(string_length_eq_zero _).mp h1.1, h1.2, not_not.mp h2⟩

theorem Admit_of_applicable (p : plugin) (a : Attributes) (h : Applicable a) :
    p.Admit a =
      match a.Object with
      | .pod pod =>
        if !checkUpdateLimitResource pod then .ok ⟨none, .pod pod⟩
        else do
          let pod ← updateLimitResource pod
          pure ⟨none, .pod pod⟩
      | obj =>
        .ok ⟨some (NewBadRequest
          "Resource was marked with kind Pod but was unable to be converted"), obj⟩ := by
  obtain ⟨h1, h2, h3⟩ := h
  unfold plugin.Admit
  rw [if_neg, if_neg]
  · simp [h3]
  · simp [h1, h2]

theorem lookup_insertEntry_self (k : ResourceName) (v : Quantity)
    (entries : List (ResourceName × Quantity)) :
    (insertEntry k v entries).lookup k = some v := by
  induction entries with
  | nil => simp [insertEntry, List.lookup]
  | cons e rest ih =>
    obtain ⟨k1, v1⟩ := e
    by_cases h : k1 = k
    · simp [insertEntry, h, List.lookup]
    · have h1 : (k == k1) = false := by simpa using fun h2 => h h2.symm
      simp [insertEntry, h, List.lookup, h1, ih]

theorem lookup_insertEntry_of_ne (k k1 : ResourceName) (v : Quantity)
    (entries : List (ResourceName × Quantity)) (hne : k1 ≠ k) :
    (insertEntry k v entries).lookup k1 = entries.lookup k1 := by
  induction entries with
  | nil =>
    have h1 : (k1 == k) = false := by simpa using hne
    simp [insertEntry, List.lookup, h1]
  | cons e rest ih =>
    obtain ⟨k2, v2⟩ := e
    by_cases h : k2 = k
    · subst h
      have h1 : (k1 == k2) = false := by simpa using hne
      simp [insertEntry, List.lookup, h1]
    · by_cases h2 : k1 = k2
      · simp [insertEntry, h, List.lookup, h2]
      · have h3 : (k1 == k2) = false := by simpa using h2
        simp [insertEntry, h, List.lookup, h3, ih]

theorem rangeLoop_mk (ladder : List Quantity) (entries : List (ResourceName × Quantity))
    (k : ResourceName) :
    rangeLoop ladder (.mk entries) k =
      .ok (match ladder.find? (fun c => decide (c.Cmp ((ResourceList.mk entries).index k) = 1)) with
        | some c => .mk (insertEntry k c entries)
        | none => .mk entries) := by
  induction ladder with
  | nil => simp [rangeLoop]
  | cons c rest ih =>
    by_cases h : c.Cmp ((ResourceList.mk entries).index k) = 1
    · simp [rangeLoop, h, ResourceList.set, List.find?]
    · simp [rangeLoop, h, List.find?, ih]

theorem find_isCeiling (ladder : List Quantity)
    (hs : ladder.Pairwise (fun a b => a.Cmp b = -1)) (v c : Quantity)
    (h : ladder.find? (fun c => decide (c.Cmp v = 1)) = some c) : IsCeiling ladder v c := by
  induction ladder with
  | nil => simp at h
  | cons a rest ih =>
    rw [List.pairwise_cons] at hs
    by_cases ha : a.Cmp v = 1
    · simp [List.find?, ha] at h
      subst h
      refine ⟨List.mem_cons_self _ _, ha, ?_⟩
      intro t ht _
      rw [Ne, Quantity.Cmp_eq_neg_one_iff]
      rcases List.mem_cons.mp ht with rfl | ht
      · exact lt_irrefl _
      · have := (Quantity.Cmp_eq_neg_one_iff _ _).mp (hs.1 t ht)
        exact not_lt.mpr this.le
    · simp [List.find?, ha] at h
      obtain ⟨h1, h2, h3⟩ := ih hs.2 h
      refine ⟨List.mem_cons_of_mem _ h1, h2, ?_⟩
      intro t ht htv
      rcases List.mem_cons.mp ht with rfl | ht
      · exact absurd htv ha
      · exact h3 t ht htv

theorem find_next_tier (ladder : List Quantity)
    (hs : ladder.Pairwise (fun a b => a.Cmp b = -1)) (i : Nat) (t next v : Quantity)
    (ht : ladder[i]? = some t) (hn : ladder[i + 1]? = some next) (hv : v.Cmp t = 0) :
    ladder.find? (fun c => decide (c.Cmp v = 1)) = some next := by
  have hvt := (Quantity.Cmp_eq_zero_iff _ _).mp hv
  induction ladder generalizing i with
  | nil => simp at ht
  | cons a rest ih =>
    rw [List.pairwise_cons] at hs
    cases i with
    | zero =>
      simp at ht
      subst ht
      have ha : ¬ a.Cmp v = 1 := by
        rw [Quantity.Cmp_eq_one_iff, hvt]
        exact lt_irrefl _
      cases rest with
      | nil => simp at hn
      | cons b rest1 =>
        simp at hn
        subst hn
        have hb : b.Cmp v = 1 := by
          rw [Quantity.Cmp_eq_one_iff, hvt]
          exact (Quantity.Cmp_eq_neg_one_iff _ _).mp (hs.1 b (List.mem_cons_self _ _))
        simp [List.find?, ha, hb]
    | succ j =>
      simp only [List.getElem?_cons_succ] at ht hn
      have hmem : t ∈ rest := List.getElem?_mem ht
      have ha : ¬ a.Cmp v = 1 := by
        rw [Quantity.Cmp_eq_one_iff, hvt]
        exact not_lt.mpr ((Quantity.Cmp_eq_neg_one_iff _ _).mp (hs.1 t hmem)).le
      simp only [List.find?, ha, decide_False]
      exact ih hs.2 j ht hn

theorem cpuTiers_pairwise : cpuTiers.Pairwise (fun a b => a.Cmp b = -1) := by decide

theorem memTiers_pairwise : memTiers.Pairwise (fun a b => a.Cmp b = -1) := by decide

/-! ## What `setLimitRangeResource` does to one map and to a block -/

theorem MustParse_one : MustParse "1" = .ok ⟨1, 0⟩ := by decide

theorem MustParse_128Mem :
    MustParse "128Mem" = .error "cannot parse '128Mem': unable to parse quantity's suffix" := by
  decide

theorem setKind_of_declared (ladder : List Quantity) (dflt : String)
    (entries : List (ResourceName × Quantity)) (k : ResourceName) (v : Quantity)
    (h : entries.lookup k = some v) :
    setKind ladder dflt (.mk entries) k =
      .ok (match ladder.find? (fun c => decide (c.Cmp v = 1)) with
        | some c => .mk (insertEntry k c entries)
        | none => .mk entries) := by
  have hidx : (ResourceList.mk entries).index k = v := by
    simp [ResourceList.index, ResourceList.get?, h]
  simp only [setKind, ResourceList.get?, h]
  rw [rangeLoop_mk, hidx]

theorem setKind_of_undeclared (ladder : List Quantity) (dflt : String)
    (entries : List (ResourceName × Quantity)) (k : ResourceName)
    (h : entries.lookup k = none) :
    setKind ladder dflt (.mk entries) k =
      match MustParse dflt with
      | .ok d => .ok (.mk (insertEntry k d entries))
      | .error e => .error e := by
  simp only [setKind, ResourceList.get?, h]
  cases MustParse dflt <;> rfl

theorem cpu_ne_memory : ResourceCPU ≠ ResourceMemory := by decide

/-- A populated map without a memory entry: the call panics parsing
`128Mem`. -/
theorem setList_panics (cpuRange memRange : List Quantity)
    (entries : List (ResourceName × Quantity)) (hne : entries ≠ [])
    (hm : entries.lookup ResourceMemory = none) :
    setList cpuRange memRange (.mk entries) =
      .error "cannot parse '128Mem': unable to parse quantity's suffix" := by
  have hlen : (ResourceList.mk entries).len ≠ 0 := by
    simpa [ResourceList.len] using hne
  rw [setList, if_pos hlen]
  cases hc : entries.lookup ResourceCPU with
  | none =>
    rw [setKind_of_undeclared _ _ _ _ hc, MustParse_one]
    have h1 : (insertEntry ResourceCPU ⟨1, 0⟩ entries).lookup ResourceMemory = none := by
      rw [lookup_insertEntry_of_ne _ _ _ _ cpu_ne_memory.symm, hm]
    simp only [bind, Except.bind]
    rw [setKind_of_undeclared _ _ _ _ h1, MustParse_128Mem]
  | some v =>
    rw [setKind_of_declared _ _ _ _ _ hc]
    cases hf : cpuRange.find? (fun c => decide (c.Cmp v = 1)) with
    | none =>
      simp only [bind, Except.bind]
      rw [setKind_of_undeclared _ _ _ _ hm, MustParse_128Mem]
    | some c =>
      have h1 : (insertEntry ResourceCPU c entries).lookup ResourceMemory = none := by
        rw [lookup_insertEntry_of_ne _ _ _ _ cpu_ne_memory.symm, hm]
      simp only [bind, Except.bind]
      rw [setKind_of_undeclared _ _ _ _ h1, MustParse_128Mem]

/-- A populated map with a memory entry: the call returns a map in which a
declared CPU or memory value is replaced by the first tier above it (and
kept when there is none), an undeclared CPU is `1`, and every other kind is
as it was. -/
theorem setList_returns (cpuRange memRange : List Quantity)
    (entries : List (ResourceName × Quantity)) (hne : entries ≠ []) (vm : Quantity)
    (hm : entries.lookup ResourceMemory = some vm) :
    ∃ out, setList cpuRange memRange (.mk entries) = .ok (.mk out) ∧
      out.lookup ResourceCPU = some (match entries.lookup ResourceCPU with
        | some v => (cpuRange.find? (fun c => decide (c.Cmp v = 1))).getD v
        | none => ⟨1, 0⟩) ∧
      out.lookup ResourceMemory =
        some ((memRange.find? (fun c => decide (c.Cmp vm = 1))).getD vm) ∧
      ∀ k, k ≠ ResourceCPU → k ≠ ResourceMemory → out.lookup k = entries.lookup k := by
  have hlen : (ResourceList.mk entries).len ≠ 0 := by
    simpa [ResourceList.len] using hne
  -- the CPU step
  obtain ⟨mid, hmid, hcpu, hrest⟩ : ∃ mid,
      setKind cpuRange "1" (.mk entries) ResourceCPU = .ok (.mk mid) ∧
      mid.lookup ResourceCPU = some (match entries.lookup ResourceCPU with
        | some v => (cpuRange.find? (fun c => decide (c.Cmp v = 1))).getD v
        | none => ⟨1, 0⟩) ∧
      ∀ k, k ≠ ResourceCPU → mid.lookup k = entries.lookup k := by
    cases hc : entries.lookup ResourceCPU with
    | none =>
      refine ⟨insertEntry ResourceCPU ⟨1, 0⟩ entries, ?_, lookup_insertEntry_self _ _ _, ?_⟩
      · rw [setKind_of_undeclared _ _ _ _ hc, MustParse_one]
      · intro k hk
        exact lookup_insertEntry_of_ne _ _ _ _ hk
    | some v =>
      cases hf : cpuRange.find? (fun c => decide (c.Cmp v = 1)) with
      | none =>
        refine ⟨entries, ?_, ?_, fun _ _ => rfl⟩
        · rw [setKind_of_declared _ _ _ _ _ hc, hf]
        · simp [hc, hf]
      | some c =>
        refine ⟨insertEntry ResourceCPU c entries, ?_, ?_, ?_⟩
        · rw [setKind_of_declared _ _ _ _ _ hc, hf]
        · simp [lookup_insertEntry_self, hf]
        · intro k hk
          exact lookup_insertEntry_of_ne _ _ _ _ hk
  have hmm : mid.lookup ResourceMemory = some vm := by
    rw [hrest _ cpu_ne_memory.symm, hm]
  rw [setList, if_pos hlen, hmid]
  simp only [bind, Except.bind]
  rw [setKind_of_declared _ _ _ _ _ hmm]
  cases hf : memRange.find? (fun c => decide (c.Cmp vm = 1)) with
  | none =>
    refine ⟨mid, rfl, hcpu, ?_, ?_⟩
    · simp [hmm]
    · intro k hk _
      exact hrest k hk
  | some c =>
    refine ⟨insertEntry ResourceMemory c mid, rfl, ?_, ?_, ?_⟩
    · rw [lookup_insertEntry_of_ne _ _ _ _ cpu_ne_memory, hcpu]
    · simp [lookup_insertEntry_self]
    · intro k hk hk2
      rw [lookup_insertEntry_of_ne _ _ _ _ hk2, hrest k hk]

/-- A map with no entry, nil or made, is returned as it is. -/
theorem setList_of_empty (cpuRange memRange : List Quantity) (m : ResourceList)
    (h : m.len = 0) : setList cpuRange memRange m = .ok m := by
  simp [setList, h]

/-- The call on a block: the tables parse, then the limits and then the
requests are settled. -/
theorem setLimitRangeResource_eq (r : ResourceRequirements) :
    setLimitRangeResource r =
      match setList cpuTiers memTiers r.Limits with
      | .error e => .error e
      | .ok limits =>
        match setList cpuTiers memTiers r.Requests with
        | .error e => .error e
        | .ok requests => .ok { Limits := limits, Requests := requests } := by
  have h1 : cpuRangeLimits = .ok cpuTiers := by decide
  have h2 : cpuRangeRequests = .ok cpuTiers := by decide
  have h3 : memRangeLimits = .ok memTiers := by decide
  have h4 : memRangeRequests = .ok memTiers := by decide
  simp only [setLimitRangeResource, h1, h2, h3, h4, bind, Except.bind, pure, Except.pure]
  cases setList cpuTiers memTiers r.Limits with
  | error e => rfl
  | ok limits =>
    cases setList cpuTiers memTiers r.Requests <;> rfl

/-- `setLimitRangeResource` returns exactly on the blocks in which each
populated map has a memory entry; on any other block it panics. -/
theorem setLimitRangeResource_returns_iff (r : ResourceRequirements) :
    (∃ out, setLimitRangeResource r = .ok out) ↔
      (r.Limits.len = 0 ∨ (r.Limits.get? ResourceMemory).isSome) ∧
      (r.Requests.len = 0 ∨ (r.Requests.get? ResourceMemory).isSome) := by
  have one : ∀ m : ResourceList, (∃ out, setList cpuTiers memTiers m = .ok out) ↔
      (m.len = 0 ∨ (m.get? ResourceMemory).isSome) := by
    intro m
    by_cases hlen : m.len = 0
    · simp [setList_of_empty _ _ m hlen, hlen]
    · cases m with
      | nil => simp [ResourceList.len] at hlen
      | mk entries =>
        have hne : entries ≠ [] := by
          intro h
          simp [ResourceList.len, h] at hlen
        cases hm : entries.lookup ResourceMemory with
        | none => simp [setList_panics _ _ entries hne hm, hlen, ResourceList.get?, hm]
        | some vm =>
          obtain ⟨out, hout, _⟩ := setList_returns cpuTiers memTiers entries hne vm hm
          simp [hout, ResourceList.get?, hm]
  rw [setLimitRangeResource_eq, ← one, ← one]
  cases setList cpuTiers memTiers r.Limits with
  | error e => simp
  | ok limits =>
    cases setList cpuTiers memTiers r.Requests with
    | error e => simp
    | ok requests => simp

/-- A call that returned settled the limits and the requests. -/
theorem setLimitRangeResource_ok_parts (r out : ResourceRequirements)
    (h : setLimitRangeResource r = .ok out) :
    setList cpuTiers memTiers r.Limits = .ok out.Limits ∧
      setList cpuTiers memTiers r.Requests = .ok out.Requests := by
  rw [setLimitRangeResource_eq] at h
  cases hl : setList cpuTiers memTiers r.Limits with
  | error e => simp [hl] at h
  | ok limits =>
    cases hr : setList cpuTiers memTiers r.Requests with
    | error e => simp [hl, hr] at h
    | ok requests =>
      simp only [hl, hr, Except.ok.injEq] at h
      subst h
      exact ⟨rfl, rfl⟩

/-- A populated map on which the call returned had a memory entry, and the
map returned is the one `setList_returns` describes. -/
theorem setList_ok_inv (m out : ResourceList) (h : setList cpuTiers memTiers m = .ok out)
    (hlen : m.len ≠ 0) :
    ∃ entries result vm, m = .mk entries ∧ out = .mk result ∧
      entries.lookup ResourceMemory = some vm ∧
      result.lookup ResourceCPU = some (match entries.lookup ResourceCPU with
        | some v => (cpuTiers.find? (fun c => decide (c.Cmp v = 1))).getD v
        | none => ⟨1, 0⟩) ∧
      result.lookup ResourceMemory =
        some ((memTiers.find? (fun c => decide (c.Cmp vm = 1))).getD vm) ∧
      ∀ k, k ≠ ResourceCPU → k ≠ ResourceMemory → result.lookup k = entries.lookup k := by
  cases m with
  | nil => simp [ResourceList.len] at hlen
  | mk entries =>
    have hne : entries ≠ [] := by
      intro h0
      simp [ResourceList.len, h0] at hlen
    cases hm : entries.lookup ResourceMemory with
    | none =>
      rw [setList_panics _ _ entries hne hm] at h
      cases h
    | some vm =>
      obtain ⟨result, hres, h1, h2, h3⟩ := setList_returns cpuTiers memTiers entries hne vm hm
      rw [hres] at h
      cases h
      exact ⟨entries, result, vm, rfl, rfl, hm, h1, h2, h3⟩

/-- On a map on which the call returned, a declared CPU (memory) value with
a tier above it is replaced by the smallest such tier, and a value with no
tier above it is kept. -/
theorem setList_ceiling (m out : ResourceList) (h : setList cpuTiers memTiers m = .ok out)
    (k : ResourceName) (ladder : List Quantity)
    (hk : (k = ResourceCPU ∧ ladder = cpuTiers) ∨ (k = ResourceMemory ∧ ladder = memTiers))
    (v : Quantity) (hv : m.get? k = some v) :
    ((∃ t ∈ ladder, t.Cmp v = 1) → ∃ c, out.get? k = some c ∧ IsCeiling ladder v c) ∧
    ((∀ t ∈ ladder, t.Cmp v ≠ 1) → out.get? k = some v) := by
  have hlen : m.len ≠ 0 := by
    cases m with
    | nil => simp [ResourceList.get?] at hv
    | mk entries =>
      intro h0
      have : entries = [] := List.length_eq_zero.mp h0
      subst this
      simp [ResourceList.get?] at hv
  obtain ⟨entries, result, vm, rfl, rfl, hm, h1, h2, _⟩ := setList_ok_inv m out h hlen
  simp only [ResourceList.get?] at hv ⊢
  have hs : ladder.Pairwise (fun a b => a.Cmp b = -1) := by
    rcases hk with ⟨_, rfl⟩ | ⟨_, rfl⟩
    · exact cpuTiers_pairwise
    · exact memTiers_pairwise
  have hout : result.lookup k = some ((ladder.find? (fun c => decide (c.Cmp v = 1))).getD v) := by
    rcases hk with ⟨rfl, rfl⟩ | ⟨rfl, rfl⟩
    · rw [h1, hv]
    · rw [hm] at hv
      cases hv
      exact h2
  constructor
  · rintro ⟨t, ht, htv⟩
    cases hf : ladder.find? (fun c => decide (c.Cmp v = 1)) with
    | none =>
      rw [List.find?_eq_none] at hf
      exact absurd (by simpa using htv) (hf t ht)
    | some c =>
      refine ⟨c, ?_, find_isCeiling ladder hs v c hf⟩
      rw [hout, hf]
      rfl
  · intro hnone
    have hf : ladder.find? (fun c => decide (c.Cmp v = 1)) = none := by
      rw [List.find?_eq_none]
      intro t ht
      simpa using hnone t ht
    rw [hout, hf]
    rfl

/-- On a map on which the call returned, a declared CPU (memory) value
equal to a tier with a tier after it is replaced by that next tier. -/
theorem setList_next_tier (m out : ResourceList) (h : setList cpuTiers memTiers m = .ok out)
    (k : ResourceName) (ladder : List Quantity)
    (hk : (k = ResourceCPU ∧ ladder = cpuTiers) ∨ (k = ResourceMemory ∧ ladder = memTiers))
    (i : Nat) (t next v : Quantity) (ht : ladder[i]? = some t)
    (hn : ladder[i + 1]? = some next) (hv : m.get? k = some v) (hvt : v.Cmp t = 0) :
    out.get? k = some next := by
  have hlen : m.len ≠ 0 := by
    cases m with
    | nil => simp [ResourceList.get?] at hv
    | mk entries =>
      intro h0
      have : entries = [] := List.length_eq_zero.mp h0
      subst this
      simp [ResourceList.get?] at hv
  obtain ⟨entries, result, vm, rfl, rfl, hm, h1, h2, _⟩ := setList_ok_inv m out h hlen
  simp only [ResourceList.get?] at hv ⊢
  have hs : ladder.Pairwise (fun a b => a.Cmp b = -1) := by
    rcases hk with ⟨_, rfl⟩ | ⟨_, rfl⟩
    · exact cpuTiers_pairwise
    · exact memTiers_pairwise
  have hf := find_next_tier ladder hs i t next v ht hn hvt
  rcases hk with ⟨rfl, rfl⟩ | ⟨rfl, rfl⟩
  · rw [h1, hv]
    simp only [hf, Option.getD_some]
  · rw [hm] at hv
    cases hv
    rw [h2, hf]
    rfl

/-! ## The map and the block a call leaves in memory -/

theorem populated_iff (m : ResourceList) : m.populated ↔ ∃ k, (m.get? k).isSome := by
  cases m with
  | nil => simp [ResourceList.populated, ResourceList.len, ResourceList.get?]
  | mk entries =>
    cases entries with
    | nil => simp [ResourceList.populated, ResourceList.len, ResourceList.get?]
    | cons e rest =>
      obtain ⟨k, v⟩ := e
      simp only [ResourceList.populated, ResourceList.len, List.length_cons, ne_eq,
        Nat.add_one_ne_zero, not_false_eq_true, ResourceList.get?, true_iff]
      exact ⟨k, by simp [List.lookup]⟩

theorem populated_of_get? (m : ResourceList) (k : ResourceName) (v : Quantity)
    (h : m.get? k = some v) : m.populated :=
  (populated_iff m).mpr ⟨k, by simp [h]⟩

theorem populated_mk (m : ResourceList) (h : m.populated) : ∃ entries, m = .mk entries := by
  cases m with
  | nil => simp [ResourceList.populated, ResourceList.len] at h
  | mk entries => exact ⟨entries, rfl⟩

theorem raise_of_none (ladder : List Quantity) (v : Quantity)
    (h : ∀ t ∈ ladder, t.Cmp v ≠ 1) : raise ladder v = v := by
  have hf : ladder.find? (fun c => decide (c.Cmp v = 1)) = none := by
    rw [List.find?_eq_none]
    intro t ht
    simpa using h t ht
  simp [raise, hf]

theorem raise_isCeiling (ladder : List Quantity)
    (hs : ladder.Pairwise (fun a b => a.Cmp b = -1)) (v : Quantity)
    (h : ∃ t ∈ ladder, t.Cmp v = 1) : IsCeiling ladder v (raise ladder v) := by
  obtain ⟨t, ht, htv⟩ := h
  cases hf : ladder.find? (fun c => decide (c.Cmp v = 1)) with
  | none =>
    rw [List.find?_eq_none] at hf
    exact absurd (by simpa using htv) (hf t ht)
  | some c =>
    have hc : raise ladder v = c := by simp [raise, hf]
    rw [hc]
    exact find_isCeiling ladder hs v c hf

/-- The CPU step of a made map returns: where CPU was declared it is
raised, where it was not it is the default `1`, and every other key is as it
was. -/
theorem setKind_cpu (cpuRange : List Quantity) (entries : List (ResourceName × Quantity)) :
    ∃ mid, setKind cpuRange "1" (.mk entries) ResourceCPU = .ok (.mk mid) ∧
      mid.lookup ResourceCPU = some (match entries.lookup ResourceCPU with
        | some v => raise cpuRange v
        | none => ⟨1, 0⟩) ∧
      ∀ k, k ≠ ResourceCPU → mid.lookup k = entries.lookup k := by
  cases hc : entries.lookup ResourceCPU with
  | none =>
    refine ⟨insertEntry ResourceCPU ⟨1, 0⟩ entries, ?_, lookup_insertEntry_self _ _ _, ?_⟩
    · rw [setKind_of_undeclared _ _ _ _ hc, MustParse_one]
    · intro k hk
      exact lookup_insertEntry_of_ne _ _ _ _ hk
  | some v =>
    cases hf : cpuRange.find? (fun c => decide (c.Cmp v = 1)) with
    | none =>
      refine ⟨entries, ?_, ?_, fun _ _ => rfl⟩
      · rw [setKind_of_declared _ _ _ _ _ hc, hf]
      · simp [hc, raise, hf]
    | some c =>
      refine ⟨insertEntry ResourceCPU c entries, ?_, ?_, ?_⟩
      · rw [setKind_of_declared _ _ _ _ _ hc, hf]
      · simp [lookup_insertEntry_self, raise, hf]
      · intro k hk
        exact lookup_insertEntry_of_ne _ _ _ _ hk

/-- What the memory step leaves of a made map: a declared memory is raised,
an undeclared one stays undeclared (the default literal does not parse), and
every other key is as it was. -/
theorem setKindAfter_memory (memRange : List Quantity)
    (entries : List (ResourceName × Quantity)) (k : ResourceName) :
    (setKindAfter memRange "128Mem" (.mk entries) ResourceMemory).get? k =
      if k = ResourceMemory then (entries.lookup ResourceMemory).map (raise memRange)
      else entries.lookup k := by
  unfold setKindAfter
  cases hm : entries.lookup ResourceMemory with
  | none =>
    rw [setKind_of_undeclared _ _ _ _ hm, MustParse_128Mem]
    by_cases hk : k = ResourceMemory
    · simp [hk, ResourceList.get?, hm]
    · simp [hk, ResourceList.get?]
  | some vm =>
    rw [setKind_of_declared _ _ _ _ _ hm]
    cases hf : memRange.find? (fun c => decide (c.Cmp vm = 1)) with
    | none =>
      by_cases hk : k = ResourceMemory
      · simp [hk, ResourceList.get?, hm, raise, hf]
      · simp [hk, ResourceList.get?]
    | some c =>
      by_cases hk : k = ResourceMemory
      · simp [hk, ResourceList.get?, lookup_insertEntry_self, raise, hf]
      · simp [hk, ResourceList.get?, lookup_insertEntry_of_ne _ _ _ _ hk]

/-- Every entry of the map lines 104-125 (127-148) leave in memory. -/
theorem setListAfter_get? (cpuRange memRange : List Quantity) (m : ResourceList)
    (k : ResourceName) :
    (setListAfter cpuRange memRange m).get? k =
      if m.populated then
        if k = ResourceCPU then
          some (match m.get? ResourceCPU with
            | some v => raise cpuRange v
            | none => ⟨1, 0⟩)
        else if k = ResourceMemory then (m.get? ResourceMemory).map (raise memRange)
        else m.get? k
      else m.get? k := by
  by_cases hp : m.populated
  · obtain ⟨entries, rfl⟩ := populated_mk m hp
    obtain ⟨mid, hmid, hcpu, hrest⟩ := setKind_cpu cpuRange entries
    have hlen : (ResourceList.mk entries).len ≠ 0 := hp
    rw [if_pos hp, setListAfter, if_pos hlen, hmid]
    simp only []
    rw [setKindAfter_memory]
    simp only [ResourceList.get?]
    by_cases hk : k = ResourceCPU
    · subst hk
      rw [if_neg cpu_ne_memory, if_pos rfl, hcpu]
    · rw [if_neg hk]
      by_cases hk2 : k = ResourceMemory
      · subst hk2
        rw [if_pos rfl, if_pos rfl, hrest _ hk]
      · rw [if_neg hk2, if_neg hk2, hrest _ hk]
  · have hlen : ¬ m.len ≠ 0 := hp
    rw [if_neg hp, setListAfter, if_neg hlen]

theorem setListAfter_of_ok (cpuRange memRange : List Quantity) (m out : ResourceList)
    (h : setList cpuRange memRange m = .ok out) : setListAfter cpuRange memRange m = out := by
  unfold setList at h
  unfold setListAfter
  by_cases hlen : m.len ≠ 0
  · rw [if_pos hlen] at h
    rw [if_pos hlen]
    cases h1 : setKind cpuRange "1" m ResourceCPU with
    | error e => simp [h1, bind, Except.bind] at h
    | ok m1 =>
      simp only [h1, bind, Except.bind] at h
      simp only [setKindAfter, h]
  · rw [if_neg hlen] at h
    rw [if_neg hlen]
    cases h
    rfl

theorem setList_error_iff (m : ResourceList) :
    (∃ e, setList cpuTiers memTiers m = .error e) ↔
      ¬ (m.populated → (m.get? ResourceMemory).isSome) := by
  by_cases hp : m.populated
  · obtain ⟨entries, rfl⟩ := populated_mk m hp
    have hne : entries ≠ [] := by
      intro h0
      simp [ResourceList.populated, ResourceList.len, h0] at hp
    cases hm : entries.lookup ResourceMemory with
    | none => simp [setList_panics _ _ entries hne hm, hp, ResourceList.get?, hm]
    | some vm =>
      obtain ⟨out, hout, _⟩ := setList_returns cpuTiers memTiers entries hne vm hm
      simp [hout, ResourceList.get?, hm]
  · have hlen : m.len = 0 := by
      simpa [ResourceList.populated] using hp
    simp [setList_of_empty _ _ m hlen, hp]

theorem setLimitRangeResourceAfter_eq (r : ResourceRequirements) :
    setLimitRangeResourceAfter r =
      { Limits := setListAfter cpuTiers memTiers r.Limits,
        Requests :=
          if r.Limits.populated → (r.Limits.get? ResourceMemory).isSome then
            setListAfter cpuTiers memTiers r.Requests
          else r.Requests } := by
  have h1 : cpuRangeLimits = .ok cpuTiers := by decide
  have h2 : cpuRangeRequests = .ok cpuTiers := by decide
  have h3 : memRangeLimits = .ok memTiers := by decide
  have h4 : memRangeRequests = .ok memTiers := by decide
  simp only [setLimitRangeResourceAfter, h1, h2, h3, h4]
  cases hl : setList cpuTiers memTiers r.Limits with
  | error e =>
    have hno := (setList_error_iff r.Limits).mp ⟨e, hl⟩
    simp only [if_neg hno]
  | ok limits =>
    have hyes : r.Limits.populated → (r.Limits.get? ResourceMemory).isSome := by
      by_contra hno
      obtain ⟨e, he⟩ := (setList_error_iff r.Limits).mpr hno
      rw [hl] at he
      cases he
    simp only [if_pos hyes, setListAfter_of_ok _ _ _ _ hl]

theorem setLimitRangeResourceAfter_of_ok (r out : ResourceRequirements)
    (h : setLimitRangeResource r = .ok out) : setLimitRangeResourceAfter r = out := by
  obtain ⟨hl, hr⟩ := setLimitRangeResource_ok_parts r out h
  have hyes : r.Limits.populated → (r.Limits.get? ResourceMemory).isSome := by
    by_contra hno
    obtain ⟨e, he⟩ := (setList_error_iff r.Limits).mpr hno
    rw [hl] at he
    cases he
  rw [setLimitRangeResourceAfter_eq, if_pos hyes, setListAfter_of_ok _ _ _ _ hl,
    setListAfter_of_ok _ _ _ _ hr]

theorem setLimitRangeResource_of_declaresMemory (r : ResourceRequirements)
    (h : r.declaresMemory) :
    setLimitRangeResource r = .ok (setLimitRangeResourceAfter r) := by
  have hret : ∃ out, setLimitRangeResource r = .ok out := by
    rw [setLimitRangeResource_returns_iff]
    obtain ⟨h1, h2⟩ := h
    constructor
    · by_cases hp : r.Limits.populated
      · exact Or.inr (h1 hp)
      · exact Or.inl (by simpa [ResourceList.populated] using hp)
    · by_cases hp : r.Requests.populated
      · exact Or.inr (h2 hp)
      · exact Or.inl (by simpa [ResourceList.populated] using hp)
  obtain ⟨out, hout⟩ := hret
  rw [hout, setLimitRangeResourceAfter_of_ok r out hout]

theorem setDefaultRangeResource_panics (r : ResourceRequirements) :
    setDefaultRangeResource r =
      .error "cannot parse '128Mem': unable to parse quantity's suffix" := by
  simp [setDefaultRangeResource, MustParse_one, MustParse_128Mem, bind, Except.bind]

theorem setListAfter_frame (cpuRange memRange : List Quantity) (m : ResourceList)
    (k : ResourceName) (hc : k ≠ ResourceCPU) (hm : k ≠ ResourceMemory) :
    (setListAfter cpuRange memRange m).get? k = m.get? k := by
  rw [setListAfter_get?, if_neg hc, if_neg hm]
  simp

/-- A declared CPU (memory) value is raised on its ladder. -/
theorem setListAfter_raised (m : ResourceList) (k : ResourceName) (ladder : List Quantity)
    (hk : (k = ResourceCPU ∧ ladder = cpuTiers) ∨ (k = ResourceMemory ∧ ladder = memTiers))
    (v : Quantity) (hv : m.get? k = some v) :
    (setListAfter cpuTiers memTiers m).get? k = some (raise ladder v) := by
  have hp := populated_of_get? m k v hv
  rw [setListAfter_get?, if_pos hp]
  rcases hk with ⟨rfl, rfl⟩ | ⟨rfl, rfl⟩
  · rw [if_pos rfl, hv]
  · rw [if_neg cpu_ne_memory.symm, if_pos rfl, hv]
    rfl

theorem setListAfter_congr (k : ResourceName) (m1 m2 : ResourceList) (h : differOnlyAt k m1 m2) (k1 : ResourceName) (hk1 : k1 ≠ k) :
    (setListAfter cpuTiers memTiers m1).get? k1 = (setListAfter cpuTiers memTiers m2).get? k1 := by
  have hpop : m1.populated ↔ m2.populated := by
    rw [populated_iff, populated_iff]
    constructor
    · rintro ⟨k2, h2⟩
      exact ⟨k2, by rw [← h.1 k2]; exact h2⟩
    · rintro ⟨k2, h2⟩
      exact ⟨k2, by rw [h.1 k2]; exact h2⟩
  rw [setListAfter_get?, setListAfter_get?]
  by_cases hp : m1.populated
  · rw [if_pos hp, if_pos (hpop.mp hp)]
    by_cases hc : k1 = ResourceCPU
    · subst hc
      rw [if_pos rfl, if_pos rfl, h.2 _ hk1]
    · rw [if_neg hc, if_neg hc]
      by_cases hm : k1 = ResourceMemory
      · subst hm
        rw [if_pos rfl, if_pos rfl, h.2 _ hk1]
      · rw [if_neg hm, if_neg hm, h.2 _ hk1]
  · rw [if_neg hp, if_neg (fun h2 => hp (hpop.mpr h2)), h.2 _ hk1]

theorem limitsReturn_congr (m1 m2 : ResourceList)
    (h : ∀ k1, (m1.get? k1).isSome = (m2.get? k1).isSome) :
    (m1.populated → (m1.get? ResourceMemory).isSome) ↔
      (m2.populated → (m2.get? ResourceMemory).isSome) := by
  have hpop : m1.populated ↔ m2.populated := by
    rw [populated_iff, populated_iff]
    constructor
    · rintro ⟨k2, h2⟩
      exact ⟨k2, by rw [← h k2]; exact h2⟩
    · rintro ⟨k2, h2⟩
      exact ⟨k2, by rw [h k2]; exact h2⟩
  rw [hpop, h ResourceMemory]

theorem declaresMemory_iff_returns (r : ResourceRequirements) :
    r.declaresMemory ↔ ∃ out, setLimitRangeResource r = .ok out := by
  constructor
  · intro h
    exact ⟨_, setLimitRangeResource_of_declaresMemory r h⟩
  · intro h
    rw [setLimitRangeResource_returns_iff] at h
    constructor
    · intro hp
      rcases h.1 with h0 | h1
      · exact absurd h0 hp
      · exact h1
    · intro hp
      rcases h.2 with h0 | h1
      · exact absurd h0 hp
      · exact h1

theorem normalizeBlockAfter_of_ok (r out : ResourceRequirements)
    (h : normalizeBlock r = .ok out) : normalizeBlockAfter r = out := by
  unfold normalizeBlock at h
  unfold normalizeBlockAfter
  by_cases hset : checkSetResource (some r) = true
  · rw [if_pos hset] at h
    rw [if_pos hset]
    exact setLimitRangeResourceAfter_of_ok r out h
  · rw [if_neg hset, setDefaultRangeResource_panics] at h
    cases h

theorem normalizeBlockAfter_frame (r : ResourceRequirements) (k : ResourceName)
    (hc : k ≠ ResourceCPU) (hm : k ≠ ResourceMemory) :
    (normalizeBlockAfter r).Limits.get? k = r.Limits.get? k ∧
      (normalizeBlockAfter r).Requests.get? k = r.Requests.get? k := by
  unfold normalizeBlockAfter
  by_cases hset : checkSetResource (some r) = true
  · rw [if_pos hset, setLimitRangeResourceAfter_eq]
    refine ⟨setListAfter_frame _ _ _ k hc hm, ?_⟩
    by_cases hl : r.Limits.populated → (r.Limits.get? ResourceMemory).isSome
    · simp only [if_pos hl]
      exact setListAfter_frame _ _ _ k hc hm
    · simp only [if_neg hl]
  · rw [if_neg hset, setDefaultRangeResourceAfter, setDefaultRangeResource_panics]
    exact ⟨rfl, rfl⟩

theorem no_tier_above (ladder : List Quantity) (top v : Quantity)
    (htop : ∀ t ∈ ladder, t.Cmp top ≠ 1) (hv : v.Cmp top ≠ -1) :
    ∀ t ∈ ladder, t.Cmp v ≠ 1 := by
  intro t ht
  have h1 := htop t ht
  rw [Ne, Quantity.Cmp_eq_one_iff] at h1 ⊢
  rw [Ne, Quantity.Cmp_eq_neg_one_iff] at hv
  intro h2
  exact hv (lt_of_lt_of_le h2 (not_lt.mp h1))

theorem checkUpdateLimitResource_eq (pod : Pod) :
    checkUpdateLimitResource pod =
      (pod.Spec.Containers.map fun c => c.Resources.Limits.get? ResourceNvidiaGPU).any
        fun entry =>
          match entry with
          | some v => v.AsInt64.2 && decide (v.AsInt64.1 > 0)
          | none => false := by
  unfold checkUpdateLimitResource
  induction pod.Spec.Containers with
  | nil => rfl
  | cons c rest ih =>
    simp only [List.any_cons, List.map_cons, ih]
    congr 1
    cases hg : c.Resources.Limits.get? ResourceNvidiaGPU with
    | none =>
      rw [NvidiaGPU_of_get?_none _ hg, AsInt64_zero]
      simp
    | some v =>
      have hv : c.Resources.Limits.NvidiaGPU = v := by simp [ResourceList.NvidiaGPU, hg]
      rw [hv]

theorem isPositiveInt64_iff_representable (v : Quantity) :
    v.isPositiveInt64 ↔ 0 ≤ v.scale ∧ v.representableInt64 ∧ 0 < v.toRat := by
  have hp : (0 : Int) < 10 ^ v.scale.toNat := by positivity
  constructor
  · rintro ⟨hs, hv, hmax⟩
    have hrat : v.toRat = ((v.value * 10 ^ v.scale.toNat : Int) : ℚ) := by
      have h := Quantity.scaled_toRat v 0 hs
      simpa using h.symm
    have hpos : 0 < v.value * 10 ^ v.scale.toNat := mul_pos hv hp
    have hmax0 : (0 : Int) ≤ Quantity.maxInt64 := by decide
    refine ⟨hs, ⟨v.value * 10 ^ v.scale.toNat, by omega, hmax, hrat⟩, ?_⟩
    rw [hrat]
    exact_mod_cast hpos
  · rintro ⟨hs, ⟨n, _, hmax, hn⟩, hpos⟩
    have hrat : v.toRat = ((v.value * 10 ^ v.scale.toNat : Int) : ℚ) := by
      have h := Quantity.scaled_toRat v 0 hs
      simpa using h.symm
    have heq : v.value * 10 ^ v.scale.toNat = n := by
      have h : ((v.value * 10 ^ v.scale.toNat : Int) : ℚ) = (n : ℚ) := by rw [← hrat, hn]
      exact_mod_cast h
    have hpos1 : 0 < v.value * 10 ^ v.scale.toNat := by
      rw [hrat] at hpos
      exact_mod_cast hpos
    exact ⟨hs, pos_of_mul_pos_left hpos1 hp.le, by rw [heq]; exact hmax⟩

/-! ## Order of the values a call leaves -/

theorem Quantity.Cmp_ne_one_iff (a b : Quantity) : a.Cmp b ≠ 1 ↔ a.toRat ≤ b.toRat := by
  rw [Ne, Quantity.Cmp_eq_one_iff, not_lt]

theorem Quantity.Cmp_ne_neg_one_iff (a b : Quantity) : a.Cmp b ≠ -1 ↔ b.toRat ≤ a.toRat := by
  rw [Ne, Quantity.Cmp_eq_neg_one_iff, not_lt]

theorem raise_cons (a : Quantity) (ladder : List Quantity) (v : Quantity) :
    raise (a :: ladder) v = if a.Cmp v = 1 then a else raise ladder v := by
  by_cases h : a.Cmp v = 1
  · simp [raise, List.find?, h]
  · simp [raise, List.find?, h]

/-- The ladder walk never lowers a value. -/
theorem raise_ge (ladder : List Quantity) (v : Quantity) :
    v.toRat ≤ (raise ladder v).toRat := by
  induction ladder with
  | nil => simp [raise]
  | cons a rest ih =>
    rw [raise_cons]
    by_cases h : a.Cmp v = 1
    · rw [if_pos h]
      exact le_of_lt ((Quantity.Cmp_eq_one_iff _ _).mp h)
    · rw [if_neg h]
      exact ih

/-- The ladder walk is monotone. -/
theorem raise_mono (ladder : List Quantity) (v w : Quantity) (h : v.toRat ≤ w.toRat) :
    (raise ladder v).toRat ≤ (raise ladder w).toRat := by
  induction ladder with
  | nil => simpa [raise] using h
  | cons a rest ih =>
    rw [raise_cons, raise_cons]
    by_cases hw : a.Cmp w = 1
    · have hv : a.Cmp v = 1 := by
        rw [Quantity.Cmp_eq_one_iff] at hw ⊢
        exact lt_of_le_of_lt h hw
      rw [if_pos hw, if_pos hv]
    · rw [if_neg hw]
      by_cases hv : a.Cmp v = 1
      · rw [if_pos hv]
        have h1 : a.toRat ≤ w.toRat := (Quantity.Cmp_ne_one_iff _ _).mp hw
        exact le_trans h1 (raise_ge rest w)
      · rw [if_neg hv]
        exact ih

/-- Where a tier is above the value, the ladder walk raises it strictly. -/
theorem raise_gt (ladder : List Quantity) (v : Quantity) (h : ∃ t ∈ ladder, t.Cmp v = 1) :
    v.toRat < (raise ladder v).toRat := by
  induction ladder with
  | nil =>
    obtain ⟨t, ht, _⟩ := h
    simp at ht
  | cons a rest ih =>
    rw [raise_cons]
    by_cases ha : a.Cmp v = 1
    · rw [if_pos ha]
      exact (Quantity.Cmp_eq_one_iff _ _).mp ha
    · rw [if_neg ha]
      obtain ⟨t, ht, htv⟩ := h
      rcases List.mem_cons.mp ht with rfl | ht
      · exact absurd htv ha
      · exact ih ⟨t, ht, htv⟩

/-- The only panic of the limits (requests) step is the parse of `128Mem`:
none is a write into a nil map. -/
theorem setList_error (m : ResourceList) (e : String)
    (h : setList cpuTiers memTiers m = .error e) :
    e = "cannot parse '128Mem': unable to parse quantity's suffix" := by
  by_cases hp : m.populated
  · obtain ⟨entries, rfl⟩ := populated_mk m hp
    have hne : entries ≠ [] := by
      intro h0
      simp [ResourceList.populated, ResourceList.len, h0] at hp
    cases hm : entries.lookup ResourceMemory with
    | none =>
      rw [setList_panics _ _ entries hne hm] at h
      exact (Except.error.inj h).symm
    | some vm =>
      obtain ⟨out, hout, _⟩ := setList_returns cpuTiers memTiers entries hne vm hm
      rw [hout] at h
      cases h
  · have hlen : m.len = 0 := by
      simpa [ResourceList.populated] using hp
    rw [setList_of_empty _ _ m hlen] at h
    cases h

theorem setLimitRangeResource_error (r : ResourceRequirements) (e : String)
    (h : setLimitRangeResource r = .error e) :
    e = "cannot parse '128Mem': unable to parse quantity's suffix" := by
  rw [setLimitRangeResource_eq] at h
  cases hl : setList cpuTiers memTiers r.Limits with
  | error e1 =>
    simp only [hl] at h
    rw [← Except.error.inj h]
    exact setList_error _ _ hl
  | ok limits =>
    cases hr : setList cpuTiers memTiers r.Requests with
    | error e1 =>
      simp only [hl, hr] at h
      rw [← Except.error.inj h]
      exact setList_error _ _ hr
    | ok requests =>
      simp only [hl, hr] at h
      cases h

/-- An unpopulated map, nil or made, is left as it is. -/
theorem setListAfter_of_unpopulated (cpuRange memRange : List Quantity) (m : ResourceList)
    (h : ¬ m.populated) : setListAfter cpuRange memRange m = m := by
  have hlen : ¬ m.len ≠ 0 := h
  rw [setListAfter, if_neg hlen]

/-- Every declared CPU or memory value is at least as large in the block
the call leaves in memory, and in a block the call returns it is strictly
larger where a tier is above it. -/
theorem setLimitRangeResource_never_lowers (r : ResourceRequirements) (k : ResourceName)
    (ladder : List Quantity)
    (hk : (k = ResourceCPU ∧ ladder = cpuTiers) ∨ (k = ResourceMemory ∧ ladder = memTiers))
    (v : Quantity) :
    (r.Limits.get? k = some v →
      (∃ w, (setLimitRangeResourceAfter r).Limits.get? k = some w ∧ v.Cmp w ≠ 1) ∧
      ∀ out, setLimitRangeResource r = .ok out → (∃ t ∈ ladder, t.Cmp v = 1) →
        ∃ w, out.Limits.get? k = some w ∧ w.Cmp v = 1) ∧
    (r.Requests.get? k = some v →
      (∃ w, (setLimitRangeResourceAfter r).Requests.get? k = some w ∧ v.Cmp w ≠ 1) ∧
      ∀ out, setLimitRangeResource r = .ok out → (∃ t ∈ ladder, t.Cmp v = 1) →
        ∃ w, out.Requests.get? k = some w ∧ w.Cmp v = 1) := by
  have hge : v.Cmp (raise ladder v) ≠ 1 := (Quantity.Cmp_ne_one_iff _ _).mpr (raise_ge ladder v)
  constructor
  · intro hv
    have hafter : (setLimitRangeResourceAfter r).Limits.get? k = some (raise ladder v) := by
      rw [setLimitRangeResourceAfter_eq]
      exact setListAfter_raised _ k ladder hk v hv
    refine ⟨⟨_, hafter, hge⟩, ?_⟩
    intro out hout hex
    rw [← setLimitRangeResourceAfter_of_ok r out hout]
    exact ⟨_, hafter, (Quantity.Cmp_eq_one_iff _ _).mpr (raise_gt ladder v hex)⟩
  · intro hv
    constructor
    · rw [setLimitRangeResourceAfter_eq]
      by_cases hl : r.Limits.populated → (r.Limits.get? ResourceMemory).isSome
      · simp only [if_pos hl]
        exact ⟨_, setListAfter_raised _ k ladder hk v hv, hge⟩
      · simp only [if_neg hl]
        exact ⟨v, hv, (Quantity.Cmp_ne_one_iff _ _).mpr (le_refl _)⟩
    · intro out hout hex
      obtain ⟨_, hr⟩ := setLimitRangeResource_ok_parts r out hout
      rw [← setListAfter_of_ok _ _ _ _ hr]
      exact ⟨_, setListAfter_raised _ k ladder hk v hv,
        (Quantity.Cmp_eq_one_iff _ _).mpr (raise_gt ladder v hex)⟩

/-- Four ladder walks take a value below the top tier to the top tier and
leave any other value as it is; the values a walk leaves as they are are
those at or above the top tier. -/
theorem raise_four (ladder : List Quantity) (top : Quantity)
    (hl : (ladder = cpuTiers ∧ top = ⟨8, 0⟩) ∨ (ladder = memTiers ∧ top = ⟨1073741824, 0⟩))
    (v : Quantity) :
    raise ladder (raise ladder (raise ladder (raise ladder v))) =
        (if v.Cmp top = -1 then top else v) ∧
      (raise ladder v = v ↔ v.Cmp top ≠ -1) := by
  have hs : ladder.Pairwise (fun a b => a.Cmp b = -1) := by
    rcases hl with ⟨h, _⟩ | ⟨h, _⟩
    · rw [h]; exact cpuTiers_pairwise
    · rw [h]; exact memTiers_pairwise
  have htop : top ∈ ladder ∧ (∀ t ∈ ladder, t.Cmp top ≠ 1) ∧
      ∀ c ∈ ladder, raise ladder (raise ladder (raise ladder c)) = top := by
    rcases hl with ⟨h1, h2⟩ | ⟨h1, h2⟩
    · rw [h1, h2]; decide
    · rw [h1, h2]; decide
  by_cases hex : ∃ t ∈ ladder, t.Cmp v = 1
  · have hmem := (raise_isCeiling ladder hs v hex).1
    have hlt : v.Cmp top = -1 := by
      obtain ⟨t, ht, htv⟩ := hex
      have h1 := (Quantity.Cmp_ne_one_iff _ _).mp (htop.2.1 t ht)
      have h2 := (Quantity.Cmp_eq_one_iff _ _).mp htv
      exact (Quantity.Cmp_eq_neg_one_iff _ _).mpr (lt_of_lt_of_le h2 h1)
    refine ⟨?_, ?_⟩
    · rw [if_pos hlt]
      exact htop.2.2 _ hmem
    · constructor
      · intro heq
        have h1 := raise_gt ladder v hex
        rw [heq] at h1
        exact absurd h1 (lt_irrefl _)
      · intro hne
        exact absurd hlt hne
  · have hno : ∀ t ∈ ladder, t.Cmp v ≠ 1 := by
      intro t ht htv
      exact hex ⟨t, ht, htv⟩
    have hfix := raise_of_none ladder v hno
    have hge : v.Cmp top ≠ -1 := by
      rw [Quantity.Cmp_ne_neg_one_iff]
      exact (Quantity.Cmp_ne_one_iff _ _).mp (hno top htop.1)
    refine ⟨?_, ?_⟩
    · rw [if_neg hge, hfix, hfix, hfix, hfix]
    · exact ⟨fun _ => hge, fun _ => hfix⟩

/-! ## Properties of the specification -/

/-- C1: `plugin.Handles(op)` is true exactly when `op` is `Create`; it is
false for `Update`, `Delete` and `Connect`. -/
theorem Handles_iff_create (p : plugin) (op : Operation) :
    (p.Handles op = true ↔ op = Create) ∧ p.Handles Update = false ∧
      p.Handles Delete = false ∧ p.Handles Connect = false ∧ p.Handles Create = true := by
  unfold plugin.Handles
  refine ⟨?_, by decide, by decide, by decide, by decide⟩
  by_cases h : op = Create <;> simp [h]

/-- C2: `Admit` returns an error exactly for an applicable request (no
sub-resource, resource `pods`, operation `Create`) whose object is not a
pod; the error is then the bad-request error and the object is the object
of the request; such a request does get that error; and a request whose
object is a pod never gets an error returned. -/
theorem Admit_error_iff (p : plugin) (a : Attributes) :
    ((∃ res e, p.Admit a = .ok res ∧ res.err = some e) ↔
        (Applicable a ∧ a.Object.isPod = false)) ∧
    (∀ res e, p.Admit a = .ok res → res.err = some e →
        e = NewBadRequest "Resource was marked with kind Pod but was unable to be converted" ∧
        e.Code = 400 ∧ res.object = a.Object) ∧
    (Applicable a → a.Object.isPod = false →
        p.Admit a = .ok ⟨some (NewBadRequest
          "Resource was marked with kind Pod but was unable to be converted"), a.Object⟩) ∧
    (a.Object.isPod = true → ∀ res, p.Admit a = .ok res → res.err = none) := by
  have key : ∀ res e, p.Admit a = .ok res → res.err = some e →
      (Applicable a ∧ a.Object.isPod = false) ∧
      e = NewBadRequest "Resource was marked with kind Pod but was unable to be converted" ∧
      res.object = a.Object := by
    intro res e hres he
    by_cases happ : Applicable a
    · rw [Admit_of_applicable p a happ] at hres
      cases hobj : a.Object with
      | pod pod =>
        rw [hobj] at hres
        simp only at hres
        split at hres
        · cases hres
          simp at he
        · cases hupd : updateLimitResource pod with
          | error msg => simp [hupd, bind, Except.bind] at hres
          | ok pod1 =>
            simp [hupd, bind, Except.bind, pure, Except.pure] at hres
            subst hres
            simp at he
      | other kind content =>
        rw [hobj] at hres
        simp only [Except.ok.injEq] at hres
        subst hres
        simp only [Option.some.injEq] at he
        exact ⟨⟨happ, rfl⟩, he.symm, rfl⟩
      | absent =>
        rw [hobj] at hres
        simp only [Except.ok.injEq] at hres
        subst hres
        simp only [Option.some.injEq] at he
        exact ⟨⟨happ, rfl⟩, he.symm, rfl⟩
    · rw [Admit_of_not_applicable p a happ] at hres
      cases hres
      simp at he
  have bad : Applicable a → a.Object.isPod = false →
      p.Admit a = .ok ⟨some (NewBadRequest
        "Resource was marked with kind Pod but was unable to be converted"), a.Object⟩ := by
    intro happ hpod
    rw [Admit_of_applicable p a happ]
    cases hobj : a.Object with
    | pod pod => rw [hobj] at hpod; simp [Object.isPod] at hpod
    | other kind content => rfl
    | absent => rfl
  refine ⟨⟨?_, ?_⟩, ?_, bad, ?_⟩
  · rintro ⟨res, e, hres, he⟩
    exact (key res e hres he).1
  · rintro ⟨happ, hpod⟩
    exact ⟨_, _, bad happ hpod, rfl⟩
  · intro res e hres he
    obtain ⟨_, h2, h3⟩ := key res e hres he
    refine ⟨h2, ?_, h3⟩
    rw [h2]
    rfl
  · intro hpod res hres
    cases herr : res.err with
    | none => rfl
    | some e =>
      have := (key res e hres herr).1.2
      rw [hpod] at this
      cases this

/-- C3: a request that names a sub-resource, or a resource other than
`pods`, or an operation other than `Create`, is answered with success and
its object, of whatever type, is the object it came with. -/
theorem Admit_ignores_other_requests (p : plugin) (a : Attributes)
    (h : a.Subresource ≠ "" ∨ a.Resource.GroupResource ≠ Resource "pods" ∨
      a.Operation ≠ Create) :
    p.Admit a = .ok ⟨none, a.Object⟩ := by
  apply Admit_of_not_applicable
  rintro ⟨h1, h2, h3⟩
  rcases h with h | h | h
  · exact h h1
  · exact h h2
  · exact h h3

/-- Witness of C3: an update of a pod, and a create on the `status`
sub-resource carrying an object that is not a pod. -/
theorem Admit_ignores_other_requests_witness :
    (Update ≠ Create ∧
      NewLimitPolicyPlugin.Admit { createPods (.pod podRegular) with Operation := Update } =
        .ok ⟨none, .pod podRegular⟩) ∧
    ("status" ≠ "" ∧
      NewLimitPolicyPlugin.Admit { createPods (.other "Node" "n1") with Subresource := "status" } =
        .ok ⟨none, .other "Node" "n1"⟩) :=
  ⟨⟨by decide, Admit_ignores_other_requests _ _ (Or.inr (Or.inr (by decide)))⟩,
   ⟨by decide, Admit_ignores_other_requests _ _ (Or.inl (by decide))⟩⟩

/-- C4: a create request on `pods` whose pod has no container, regular or
init, declaring the accelerator kind is answered with success and the pod
it came with. -/
theorem Admit_without_trigger_unchanged (p : plugin) (a : Attributes) (pod : Pod)
    (happ : Applicable a) (hobj : a.Object = .pod pod)
    (hno : ∀ c ∈ pod.Spec.Containers ++ pod.Spec.InitContainers,
      ¬ c.declares ResourceNvidiaGPU) :
    p.Admit a = .ok ⟨none, .pod pod⟩ := by
  have hcheck : checkUpdateLimitResource pod = false := by
    apply checkUpdateLimitResource_false_of_limits
    intro c hc
    have hd := hno c (List.mem_append_left _ hc)
    simp only [Container.declares, not_or, Option.not_isSome_iff_eq_none] at hd
    exact hd.1
  rw [Admit_of_applicable p a happ, hobj]
  simp [hcheck]

/-- Witness of C4: the create request for the pod whose one container
declares CPU only. -/
theorem Admit_without_trigger_unchanged_witness :
    Applicable (createPods (.pod podCpuOnly)) ∧
    (∀ c ∈ podCpuOnly.Spec.Containers ++ podCpuOnly.Spec.InitContainers,
      ¬ c.declares ResourceNvidiaGPU) ∧
    NewLimitPolicyPlugin.Admit (createPods (.pod podCpuOnly)) = .ok ⟨none, .pod podCpuOnly⟩ :=
  ⟨by decide, by decide,
    Admit_without_trigger_unchanged NewLimitPolicyPlugin (createPods (.pod podCpuOnly))
      podCpuOnly (by decide) rfl (by decide)⟩

/-- C5, evaluated at a create request for a pod with one regular container
declaring `{cpu: 1.5, gpu: 1}`: the pod triggers normalization, `Admit`
returns success, and the pod it leaves is the pod it was given: the CPU
limit of the container is still `1.5`, while the smallest tier above `1.5`
is `2`. -/
theorem Admit_leaves_regular_container :
    checkUpdateLimitResource podRegular = true ∧
    NewLimitPolicyPlugin.Admit (createPods (.pod podRegular)) = .ok ⟨none, .pod podRegular⟩ ∧
    cpuGpuList.get? ResourceCPU = some ⟨15, -1⟩ ∧
    IsCeiling cpuTiers ⟨15, -1⟩ ⟨2, 0⟩ := by
  decide

/-- C6, evaluated at a block whose limits declare `cpu: 1.5` and no memory
and whose requests declare `cpu: 1.5` and `memory: 128`:
`setLimitRangeResource` does not return.  It panics parsing the default
memory literal `128Mem` while it settles the limits, before it reaches the
requests, whose CPU entry `1.5` has the ceiling `2`. -/
theorem setLimitRangeResource_panics_without_memory :
    setLimitRangeResource blockCpuOnly =
      .error "cannot parse '128Mem': unable to parse quantity's suffix" ∧
    blockCpuOnly.Requests.get? ResourceCPU = some ⟨15, -1⟩ ∧
    IsCeiling cpuTiers ⟨15, -1⟩ ⟨2, 0⟩ := by
  decide

/-- Block normalization is not idempotent.  A block declaring the CPU
tier `2` is taken to `4` by one application of `setLimitRangeResource` and
to `8` by a second, so the two results differ.  In general a declared value
equal to a tier that is not the top one, of the CPU or of the memory ladder,
is moved to the next tier up: by the ladder walk of the code, which always
returns, and so in the limits and in the requests of every block the call
returns on. -/
theorem setLimitRangeResource_not_idempotent :
    (∃ b1 b2, setLimitRangeResource blockOnTier = .ok b1 ∧ setLimitRangeResource b1 = .ok b2 ∧
      b1 ≠ b2 ∧ blockOnTier.Limits.get? ResourceCPU = some ⟨2, 0⟩ ∧
      b1.Limits.get? ResourceCPU = some ⟨4, 0⟩ ∧ b2.Limits.get? ResourceCPU = some ⟨8, 0⟩) ∧
    (∀ ladder ∈ [cpuTiers, memTiers], ∀ (i : Nat) (t next : Quantity),
      ladder[i]? = some t → ladder[i + 1]? = some next →
      ∀ (entries : List (ResourceName × Quantity)) (k : ResourceName) (v : Quantity),
        (ResourceList.mk entries).get? k = some v → v.Cmp t = 0 →
        ∃ m, rangeLoop ladder (.mk entries) k = .ok m ∧ m.get? k = some next) ∧
    (∀ p ∈ [(ResourceCPU, cpuTiers), (ResourceMemory, memTiers)],
      ∀ (i : Nat) (t next : Quantity), p.2[i]? = some t → p.2[i + 1]? = some next →
      ∀ (r out : ResourceRequirements) (v : Quantity),
        setLimitRangeResource r = .ok out → v.Cmp t = 0 →
        (r.Limits.get? p.1 = some v → out.Limits.get? p.1 = some next) ∧
        (r.Requests.get? p.1 = some v → out.Requests.get? p.1 = some next)) := by
  refine ⟨?_, ?_, ?_⟩
  · refine ⟨⟨.mk [(ResourceCPU, ⟨4, 0⟩), (ResourceMemory, ⟨256, 0⟩)], .nil⟩,
      ⟨.mk [(ResourceCPU, ⟨8, 0⟩), (ResourceMemory, ⟨512, 0⟩)], .nil⟩, ?_⟩
    decide
  · intro ladder hl i t next ht hn entries k v hk hv
    have hs : ladder.Pairwise (fun a b => a.Cmp b = -1) := by
      simp only [List.mem_cons, List.mem_singleton, List.not_mem_nil, or_false] at hl
      rcases hl with rfl | rfl
      · exact cpuTiers_pairwise
      · exact memTiers_pairwise
    have hidx : (ResourceList.mk entries).index k = v := by
      simp [ResourceList.index, hk]
    have hfind := find_next_tier ladder hs i t next v ht hn hv
    refine ⟨_, rangeLoop_mk ladder entries k, ?_⟩
    rw [hidx, hfind]
    exact lookup_insertEntry_self k next entries
  · intro p hp i t next ht hn r out v hok hv
    obtain ⟨hl, hr⟩ := setLimitRangeResource_ok_parts r out hok
    have hk : (p.1 = ResourceCPU ∧ p.2 = cpuTiers) ∨ (p.1 = ResourceMemory ∧ p.2 = memTiers) := by
      simp only [List.mem_cons, List.mem_singleton, List.not_mem_nil, or_false] at hp
      rcases hp with rfl | rfl
      · exact Or.inl ⟨rfl, rfl⟩
      · exact Or.inr ⟨rfl, rfl⟩
    exact ⟨fun h => setList_next_tier _ _ hl p.1 p.2 hk i t next v ht hn h hv,
      fun h => setList_next_tier _ _ hr p.1 p.2 hk i t next v ht hn h hv⟩

/-- C7, evaluated at a block whose limits declare `cpu: 2` and no memory
and whose requests declare `cpu: 2` and `memory: 128`.  The CPU request
equals the tier `2`, which is not the top tier, and the next tier up is `4`.
The call raises the CPU limit to `4` and then panics on the missing memory
limit, before it reaches the requests: the CPU request is left at `2`. -/
theorem setLimitRangeResource_leaves_tier_request :
    setLimitRangeResource blockTierRequest =
      .error "cannot parse '128Mem': unable to parse quantity's suffix" ∧
    blockTierRequest.Requests.get? ResourceCPU = some ⟨2, 0⟩ ∧
    cpuTiers[1]? = some ⟨2, 0⟩ ∧ cpuTiers[2]? = some ⟨4, 0⟩ ∧
    (setLimitRangeResourceAfter blockTierRequest).Limits.get? ResourceCPU = some ⟨4, 0⟩ ∧
    (setLimitRangeResourceAfter blockTierRequest).Requests.get? ResourceCPU = some ⟨2, 0⟩ := by
  decide

/-- C8: each of the four ladder tables parses, has a tier, is strictly
increasing under `Cmp` and has no tier twice. -/
theorem ladders_strictly_increasing :
    IsLadder cpuRangeLimits ∧ IsLadder cpuRangeRequests ∧
      IsLadder memRangeLimits ∧ IsLadder memRangeRequests :=
  ⟨⟨cpuTiers, by decide, by decide, by decide, by decide⟩,
   ⟨cpuTiers, by decide, by decide, by decide, by decide⟩,
   ⟨memTiers, by decide, by decide, by decide, by decide⟩,
   ⟨memTiers, by decide, by decide, by decide, by decide⟩⟩

/-- Counterexample to C9: three pods in which a container declares an
accelerator value that is not zero and `checkUpdateLimitResource` answers
false: the value is the limit of an init container; it is a request, not a
limit, of a regular container; it is the limit `500m` of a regular
container, which is not a whole number. -/
theorem checkUpdateLimitResource_misses_declarations :
    ¬ (checkUpdateLimitResource podInitOnly = true ↔
      ∃ c ∈ podInitOnly.Spec.Containers ++ podInitOnly.Spec.InitContainers,
        c.declaresNonZero ResourceNvidiaGPU) ∧
    ¬ (checkUpdateLimitResource podRequestOnly = true ↔
      ∃ c ∈ podRequestOnly.Spec.Containers ++ podRequestOnly.Spec.InitContainers,
        c.declaresNonZero ResourceNvidiaGPU) ∧
    ¬ (checkUpdateLimitResource podHalfGpu = true ↔
      ∃ c ∈ podHalfGpu.Spec.Containers ++ podHalfGpu.Spec.InitContainers,
        c.declaresNonZero ResourceNvidiaGPU) := by
  refine ⟨?_, ?_, ?_⟩
  · intro h
    have hfalse : checkUpdateLimitResource podInitOnly = false := by decide
    rw [hfalse] at h
    exact Bool.false_ne_true (h.mpr
      ⟨⟨"init", "foo:V0", ⟨.mk [(ResourceNvidiaGPU, ⟨1, 0⟩)], .nil⟩⟩, by decide,
        ⟨1, 0⟩, Or.inl (by decide), by decide⟩)
  · intro h
    have hfalse : checkUpdateLimitResource podRequestOnly = false := by decide
    rw [hfalse] at h
    exact Bool.false_ne_true (h.mpr
      ⟨⟨"c0", "foo:V0", ⟨.nil, .mk [(ResourceNvidiaGPU, ⟨1, 0⟩)]⟩⟩, by decide,
        ⟨1, 0⟩, Or.inr (by decide), by decide⟩)
  · intro h
    have hfalse : checkUpdateLimitResource podHalfGpu = false := by decide
    rw [hfalse] at h
    exact Bool.false_ne_true (h.mpr
      ⟨⟨"c0", "foo:V0", ⟨.mk [(ResourceNvidiaGPU, ⟨500, -3⟩)], .nil⟩⟩, by decide,
        ⟨500, -3⟩, Or.inl (by decide), by decide⟩)

/-- C9 as amended: `checkUpdateLimitResource` answers true exactly when
some regular container has, in its limits, an accelerator entry that
`AsInt64` reports as an integer above zero; init containers and requests
are not read. -/
theorem checkUpdateLimitResource_iff (pod : Pod) :
    checkUpdateLimitResource pod = true ↔
      ∃ c ∈ pod.Spec.Containers, ∃ v,
        c.Resources.Limits.get? ResourceNvidiaGPU = some v ∧ v.isPositiveInt64 := by
  unfold checkUpdateLimitResource
  rw [List.any_eq_true]
  constructor
  · rintro ⟨c, hc, h⟩
    refine ⟨c, hc, ?_⟩
    cases hg : c.Resources.Limits.get? ResourceNvidiaGPU with
    | none =>
      rw [NvidiaGPU_of_get?_none _ hg, AsInt64_zero] at h
      simp at h
    | some v =>
      have hv : c.Resources.Limits.NvidiaGPU = v := by simp [ResourceList.NvidiaGPU, hg]
      rw [hv] at h
      refine ⟨v, rfl, (isPositiveInt64_iff v).mpr ?_⟩
      simpa using h
  · rintro ⟨c, hc, v, hg, hpos⟩
    refine ⟨c, hc, ?_⟩
    have hv : c.Resources.Limits.NvidiaGPU = v := by simp [ResourceList.NvidiaGPU, hg]
    rw [hv]
    simpa using (isPositiveInt64_iff v).mp hpos

/-- C10: `checkUpdateLimitResource`, a total function, answers false for a
pod with no container, for a pod none of whose containers (regular or init)
declares the accelerator kind, and for a pod each of whose containers has
limits and requests that are nil or empty. -/
theorem checkUpdateLimitResource_false_without_gpu (pod : Pod) :
    (pod.Spec.Containers = [] → checkUpdateLimitResource pod = false) ∧
    ((∀ c ∈ pod.Spec.Containers ++ pod.Spec.InitContainers, ¬ c.declares ResourceNvidiaGPU) →
      checkUpdateLimitResource pod = false) ∧
    ((∀ c ∈ pod.Spec.Containers ++ pod.Spec.InitContainers,
        (c.Resources.Limits = .nil ∨ c.Resources.Limits = .mk []) ∧
        (c.Resources.Requests = .nil ∨ c.Resources.Requests = .mk [])) →
      checkUpdateLimitResource pod = false) := by
  refine ⟨?_, ?_, ?_⟩
  · intro h
    simp [checkUpdateLimitResource, h]
  · intro hno
    apply checkUpdateLimitResource_false_of_limits
    intro c hc
    have hd := hno c (List.mem_append_left _ hc)
    simp only [Container.declares, not_or, Option.not_isSome_iff_eq_none] at hd
    exact hd.1
  · intro hno
    apply checkUpdateLimitResource_false_of_limits
    intro c hc
    rcases (hno c (List.mem_append_left _ hc)).1 with h | h <;> rw [h] <;> rfl

/-- C11, evaluated at two pods that trigger normalization and hold a
container with no requests and no limits.  Where that container is a regular
one, `Admit` returns success and leaves it with no requests and no limits;
where it is an init container, `Admit` does not return: it panics parsing
the default memory literal `128Mem`. -/
theorem Admit_leaves_bare_containers :
    checkUpdateLimitResource podBareRegular = true ∧
    NewLimitPolicyPlugin.Admit (createPods (.pod podBareRegular)) =
      .ok ⟨none, .pod podBareRegular⟩ ∧
    checkUpdateLimitResource podBareInit = true ∧
    NewLimitPolicyPlugin.Admit (createPods (.pod podBareInit)) =
      .error "cannot parse '128Mem': unable to parse quantity's suffix" := by
  decide

/-- Counterexample to C12: a block whose limits declare CPU and memory and
whose requests are nil is normalized by `setLimitRangeResource`, which
returns it with the requests still nil: no block is returned whose requests
hold a CPU and a memory entry. -/
theorem normalizeBlock_leaves_empty_map :
    normalizeBlock blockLimitsOnly =
      .ok ⟨.mk [(ResourceCPU, ⟨2, 0⟩), (ResourceMemory, ⟨256, 0⟩)], .nil⟩ ∧
    ¬ ∃ out, normalizeBlock blockLimitsOnly = .ok out ∧
      (out.Requests.get? ResourceCPU).isSome ∧ (out.Requests.get? ResourceMemory).isSome := by
  have h : normalizeBlock blockLimitsOnly =
      .ok ⟨.mk [(ResourceCPU, ⟨2, 0⟩), (ResourceMemory, ⟨256, 0⟩)], .nil⟩ := by decide
  refine ⟨h, ?_⟩
  rintro ⟨out, hout, hcpu, _⟩
  rw [h] at hout
  cases hout
  simp [ResourceList.get?] at hcpu

/-- C12 as amended: on a block with a populated map, each populated map of
which declares memory, normalization returns; in the block returned every
map that was populated holds a CPU and a memory entry, the CPU entry being
the default `1` where the map declared none, and a map that was not
populated is as it was. -/
theorem normalizeBlock_fills_populated_maps (r : ResourceRequirements)
    (hset : checkSetResource (some r) = true) (hmem : r.declaresMemory) :
    ∃ out, normalizeBlock r = .ok out ∧
      (r.Limits.populated →
        (out.Limits.get? ResourceCPU).isSome ∧ (out.Limits.get? ResourceMemory).isSome ∧
        (r.Limits.get? ResourceCPU = none → out.Limits.get? ResourceCPU = some ⟨1, 0⟩)) ∧
      (¬ r.Limits.populated → out.Limits = r.Limits) ∧
      (r.Requests.populated →
        (out.Requests.get? ResourceCPU).isSome ∧ (out.Requests.get? ResourceMemory).isSome ∧
        (r.Requests.get? ResourceCPU = none → out.Requests.get? ResourceCPU = some ⟨1, 0⟩)) ∧
      (¬ r.Requests.populated → out.Requests = r.Requests) := by
  have one : ∀ m : ResourceList, (m.populated → (m.get? ResourceMemory).isSome) →
      (m.populated →
        ((setListAfter cpuTiers memTiers m).get? ResourceCPU).isSome ∧
        ((setListAfter cpuTiers memTiers m).get? ResourceMemory).isSome ∧
        (m.get? ResourceCPU = none →
          (setListAfter cpuTiers memTiers m).get? ResourceCPU = some ⟨1, 0⟩)) ∧
      (¬ m.populated → setListAfter cpuTiers memTiers m = m) := by
    intro m hm
    constructor
    · intro hp
      have h1 := setListAfter_get? cpuTiers memTiers m ResourceCPU
      have h2 := setListAfter_get? cpuTiers memTiers m ResourceMemory
      rw [if_pos hp, if_pos rfl] at h1
      rw [if_pos hp, if_neg cpu_ne_memory.symm, if_pos rfl] at h2
      refine ⟨by simp [h1], ?_, ?_⟩
      · rw [h2]
        have := hm hp
        cases hget : m.get? ResourceMemory with
        | none => simp [hget] at this
        | some vm => simp
      · intro hnone
        rw [h1, hnone]
    · intro hp
      have hlen : ¬ m.len ≠ 0 := hp
      rw [setListAfter, if_neg hlen]
  refine ⟨setLimitRangeResourceAfter r, ?_, ?_⟩
  · rw [normalizeBlock, if_pos hset]
    exact setLimitRangeResource_of_declaresMemory r hmem
  · rw [setLimitRangeResourceAfter_eq, if_pos hmem.1]
    exact ⟨(one r.Limits hmem.1).1, (one r.Limits hmem.1).2,
      (one r.Requests hmem.2).1, (one r.Requests hmem.2).2⟩

/-- Witness of C12 as amended: the block whose limits declare CPU and memory
and whose requests are nil. -/
theorem normalizeBlock_fills_populated_maps_witness :
    checkSetResource (some blockLimitsOnly) = true ∧ blockLimitsOnly.declaresMemory ∧
    ∃ out, normalizeBlock blockLimitsOnly = .ok out ∧
      (blockLimitsOnly.Limits.populated →
        (out.Limits.get? ResourceCPU).isSome ∧ (out.Limits.get? ResourceMemory).isSome ∧
        (blockLimitsOnly.Limits.get? ResourceCPU = none →
          out.Limits.get? ResourceCPU = some ⟨1, 0⟩)) ∧
      (¬ blockLimitsOnly.Limits.populated → out.Limits = blockLimitsOnly.Limits) ∧
      (blockLimitsOnly.Requests.populated →
        (out.Requests.get? ResourceCPU).isSome ∧ (out.Requests.get? ResourceMemory).isSome ∧
        (blockLimitsOnly.Requests.get? ResourceCPU = none →
          out.Requests.get? ResourceCPU = some ⟨1, 0⟩)) ∧
      (¬ blockLimitsOnly.Requests.populated → out.Requests = blockLimitsOnly.Requests) :=
  ⟨by decide, by decide,
    normalizeBlock_fills_populated_maps blockLimitsOnly (by decide) (by decide)⟩

/-- C13: normalizing a block, on the ladder path or on the default path,
leaves the entry of every kind other than CPU, memory and accelerator as it
was, in the requests and in the limits: in the block the call leaves in
memory, whether it returned or panicked, and so in the block it returns. -/
theorem normalizeBlock_frame (r : ResourceRequirements) (k : ResourceName)
    (hc : k ≠ ResourceCPU) (hm : k ≠ ResourceMemory) (_hg : k ≠ ResourceNvidiaGPU) :
    ((normalizeBlockAfter r).Limits.get? k = r.Limits.get? k ∧
      (normalizeBlockAfter r).Requests.get? k = r.Requests.get? k) ∧
    (∀ out, normalizeBlock r = .ok out →
      out.Limits.get? k = r.Limits.get? k ∧ out.Requests.get? k = r.Requests.get? k) := by
  refine ⟨normalizeBlockAfter_frame r k hc hm, ?_⟩
  intro out hout
  rw [← normalizeBlockAfter_of_ok r out hout]
  exact normalizeBlockAfter_frame r k hc hm

/-- Witness of C13: the block with a `storage` limit of 5 is returned with
that limit. -/
theorem normalizeBlock_frame_witness :
    (∃ out, normalizeBlock blockTop = .ok out) ∧
    ((normalizeBlockAfter blockTop).Limits.get? "storage" = blockTop.Limits.get? "storage" ∧
      (normalizeBlockAfter blockTop).Requests.get? "storage" =
        blockTop.Requests.get? "storage") ∧
    (∀ out, normalizeBlock blockTop = .ok out →
      out.Limits.get? "storage" = blockTop.Limits.get? "storage" ∧
      out.Requests.get? "storage" = blockTop.Requests.get? "storage") :=
  ⟨⟨_, (by decide : normalizeBlock blockTop = .ok blockTop)⟩,
    normalizeBlock_frame blockTop "storage" (by decide) (by decide) (by decide)⟩

/-- C14: independence across kinds and across the two maps.  Two blocks with
the same keys that differ only in their CPU values (only in their memory
values) both return or both panic, and every entry of another kind,
memory (CPU) and accelerator among them, is the same in the two blocks
left in memory and in the two blocks returned.  The limits left depend on
the limits alone, and the limits and requests returned depend on the
limits and on the requests alone. -/
theorem setLimitRangeResource_independent :
    (∀ k ∈ [ResourceCPU, ResourceMemory], ∀ r1 r2 : ResourceRequirements,
      differOnlyAt k r1.Limits r2.Limits → differOnlyAt k r1.Requests r2.Requests →
      ((∃ o, setLimitRangeResource r1 = .ok o) ↔ (∃ o, setLimitRangeResource r2 = .ok o)) ∧
      (∀ k1, k1 ≠ k →
        (setLimitRangeResourceAfter r1).Limits.get? k1 =
          (setLimitRangeResourceAfter r2).Limits.get? k1 ∧
        (setLimitRangeResourceAfter r1).Requests.get? k1 =
          (setLimitRangeResourceAfter r2).Requests.get? k1) ∧
      (∀ o1 o2, setLimitRangeResource r1 = .ok o1 → setLimitRangeResource r2 = .ok o2 →
        ∀ k1, k1 ≠ k →
          o1.Limits.get? k1 = o2.Limits.get? k1 ∧ o1.Requests.get? k1 = o2.Requests.get? k1)) ∧
    (∀ r1 r2 : ResourceRequirements, r1.Limits = r2.Limits →
      (setLimitRangeResourceAfter r1).Limits = (setLimitRangeResourceAfter r2).Limits ∧
      ∀ o1 o2, setLimitRangeResource r1 = .ok o1 → setLimitRangeResource r2 = .ok o2 →
        o1.Limits = o2.Limits) ∧
    (∀ r1 r2 : ResourceRequirements, r1.Requests = r2.Requests →
      ∀ o1 o2, setLimitRangeResource r1 = .ok o1 → setLimitRangeResource r2 = .ok o2 →
        o1.Requests = o2.Requests) := by
  refine ⟨?_, ?_, ?_⟩
  · intro k _ r1 r2 hl hr
    have hlim := limitsReturn_congr r1.Limits r2.Limits hl.1
    have hreq := limitsReturn_congr r1.Requests r2.Requests hr.1
    have hafter : ∀ k1, k1 ≠ k →
        (setLimitRangeResourceAfter r1).Limits.get? k1 =
          (setLimitRangeResourceAfter r2).Limits.get? k1 ∧
        (setLimitRangeResourceAfter r1).Requests.get? k1 =
          (setLimitRangeResourceAfter r2).Requests.get? k1 := by
      intro k1 hk1
      rw [setLimitRangeResourceAfter_eq, setLimitRangeResourceAfter_eq]
      refine ⟨setListAfter_congr k _ _ hl k1 hk1, ?_⟩
      by_cases h1 : r1.Limits.populated → (r1.Limits.get? ResourceMemory).isSome
      · simp only [if_pos h1, if_pos (hlim.mp h1)]
        exact setListAfter_congr k _ _ hr k1 hk1
      · simp only [if_neg h1, if_neg (fun h2 => h1 (hlim.mpr h2))]
        exact hr.2 k1 hk1
    refine ⟨?_, hafter, ?_⟩
    · rw [← declaresMemory_iff_returns, ← declaresMemory_iff_returns]
      unfold ResourceRequirements.declaresMemory
      rw [hlim, hreq]
    · intro o1 o2 h1 h2 k1 hk1
      rw [← setLimitRangeResourceAfter_of_ok r1 o1 h1, ← setLimitRangeResourceAfter_of_ok r2 o2 h2]
      exact hafter k1 hk1
  · intro r1 r2 h
    have hafter : (setLimitRangeResourceAfter r1).Limits =
        (setLimitRangeResourceAfter r2).Limits := by
      rw [setLimitRangeResourceAfter_eq, setLimitRangeResourceAfter_eq, h]
    refine ⟨hafter, ?_⟩
    intro o1 o2 h1 h2
    rw [← setLimitRangeResourceAfter_of_ok r1 o1 h1, ← setLimitRangeResourceAfter_of_ok r2 o2 h2]
    exact hafter
  · intro r1 r2 h o1 o2 h1 h2
    have e1 := (setLimitRangeResource_ok_parts r1 o1 h1).2
    have e2 := (setLimitRangeResource_ok_parts r2 o2 h2).2
    rw [h, e2] at e1
    exact (Except.ok.inj e1).symm

/-- Witness of C14: the block of `TestAdmit` and the same block with other
CPU values have the same keys and differ in CPU only; both are returned,
with the same memory and accelerator entries. -/
theorem setLimitRangeResource_independent_witness :
    differOnlyAt ResourceCPU blockGpuTwo.Limits blockGpuTwoOtherCpu.Limits ∧
    differOnlyAt ResourceCPU blockGpuTwo.Requests blockGpuTwoOtherCpu.Requests ∧
    blockGpuTwo.Limits.get? ResourceCPU ≠ blockGpuTwoOtherCpu.Limits.get? ResourceCPU ∧
    ∃ o1 o2, setLimitRangeResource blockGpuTwo = .ok o1 ∧
      setLimitRangeResource blockGpuTwoOtherCpu = .ok o2 ∧
      o1.Limits.get? ResourceCPU ≠ o2.Limits.get? ResourceCPU ∧
      ∀ k1, k1 ≠ ResourceCPU →
        o1.Limits.get? k1 = o2.Limits.get? k1 ∧ o1.Requests.get? k1 = o2.Requests.get? k1 := by
  have hl : differOnlyAt ResourceCPU blockGpuTwo.Limits blockGpuTwoOtherCpu.Limits := by
    constructor
    · intro k1
      simp only [blockGpuTwo, blockGpuTwoOtherCpu, ResourceList.get?, List.lookup]
      split <;> [rfl; (split <;> [rfl; (split <;> rfl)])]
    · intro k1 hk1
      have h1 : (k1 == ResourceCPU) = false := by simpa using hk1
      simp only [blockGpuTwo, blockGpuTwoOtherCpu, ResourceList.get?, List.lookup, h1]
  have hr : differOnlyAt ResourceCPU blockGpuTwo.Requests blockGpuTwoOtherCpu.Requests := by
    constructor
    · intro k1
      simp only [blockGpuTwo, blockGpuTwoOtherCpu, ResourceList.get?, List.lookup]
      split <;> [rfl; (split <;> [rfl; (split <;> rfl)])]
    · intro k1 hk1
      have h1 : (k1 == ResourceCPU) = false := by simpa using hk1
      simp only [blockGpuTwo, blockGpuTwoOtherCpu, ResourceList.get?, List.lookup, h1]
  refine ⟨hl, hr, by decide, _, _, (by decide : setLimitRangeResource blockGpuTwo = .ok
      ⟨.mk [(ResourceCPU, ⟨2, 0⟩), (ResourceMemory, ⟨1073741824, 0⟩),
          (ResourceNvidiaGPU, ⟨2, 0⟩)],
        .mk [(ResourceCPU, ⟨2, 0⟩), (ResourceMemory, ⟨1073741824, 0⟩),
          (ResourceNvidiaGPU, ⟨2, 0⟩)]⟩),
    (by decide : setLimitRangeResource blockGpuTwoOtherCpu = .ok
      ⟨.mk [(ResourceCPU, ⟨4, 0⟩), (ResourceMemory, ⟨1073741824, 0⟩),
          (ResourceNvidiaGPU, ⟨2, 0⟩)],
        .mk [(ResourceCPU, ⟨2, 0⟩), (ResourceMemory, ⟨1073741824, 0⟩),
          (ResourceNvidiaGPU, ⟨2, 0⟩)]⟩), by decide, ?_⟩
  exact (setLimitRangeResource_independent.1 ResourceCPU (by decide) blockGpuTwo
    blockGpuTwoOtherCpu hl hr).2.2 _ _ (by decide) (by decide)

/-- Counterexample to C15: a block declaring the CPU limit `16` is returned
with the CPU limit `16`, which is not a tier of the CPU ladder. -/
theorem setLimitRangeResource_leaves_over_ladder :
    blockOverLadder.Limits.get? ResourceCPU = some ⟨16, 0⟩ ∧
    setLimitRangeResource blockOverLadder =
      .ok ⟨.mk [(ResourceCPU, ⟨16, 0⟩), (ResourceMemory, ⟨256, 0⟩)], .nil⟩ ∧
    (⟨16, 0⟩ : Quantity) ∉ cpuTiers := by
  decide

/-- C15 as amended: on a block each populated map of which declares memory,
`setLimitRangeResource` returns, and in the block returned a declared CPU
(memory) value that some tier exceeds has become a tier of the CPU (memory)
ladder, while a declared value that no tier exceeds is as it was
declared. -/
theorem setLimitRangeResource_lands_on_ladder (r : ResourceRequirements)
    (hmem : r.declaresMemory) :
    ∃ out, setLimitRangeResource r = .ok out ∧
      ∀ p ∈ [(ResourceCPU, cpuTiers), (ResourceMemory, memTiers)], ∀ v,
        (r.Limits.get? p.1 = some v →
          ((∃ t ∈ p.2, t.Cmp v = 1) → ∃ c ∈ p.2, out.Limits.get? p.1 = some c) ∧
          ((∀ t ∈ p.2, t.Cmp v ≠ 1) → out.Limits.get? p.1 = some v)) ∧
        (r.Requests.get? p.1 = some v →
          ((∃ t ∈ p.2, t.Cmp v = 1) → ∃ c ∈ p.2, out.Requests.get? p.1 = some c) ∧
          ((∀ t ∈ p.2, t.Cmp v ≠ 1) → out.Requests.get? p.1 = some v)) := by
  refine ⟨setLimitRangeResourceAfter r, setLimitRangeResource_of_declaresMemory r hmem, ?_⟩
  intro p hp v
  have hk : (p.1 = ResourceCPU ∧ p.2 = cpuTiers) ∨ (p.1 = ResourceMemory ∧ p.2 = memTiers) := by
    simp only [List.mem_cons, List.mem_singleton, List.not_mem_nil, or_false] at hp
    rcases hp with rfl | rfl
    · exact Or.inl ⟨rfl, rfl⟩
    · exact Or.inr ⟨rfl, rfl⟩
  have hs : p.2.Pairwise (fun a b => a.Cmp b = -1) := by
    rcases hk with ⟨_, h⟩ | ⟨_, h⟩
    · rw [h]; exact cpuTiers_pairwise
    · rw [h]; exact memTiers_pairwise
  have one : ∀ m : ResourceList, m.get? p.1 = some v →
      ((∃ t ∈ p.2, t.Cmp v = 1) →
        ∃ c ∈ p.2, (setListAfter cpuTiers memTiers m).get? p.1 = some c) ∧
      ((∀ t ∈ p.2, t.Cmp v ≠ 1) → (setListAfter cpuTiers memTiers m).get? p.1 = some v) := by
    intro m hv
    have hraised := setListAfter_raised m p.1 p.2 hk v hv
    constructor
    · intro hex
      exact ⟨raise p.2 v, (raise_isCeiling p.2 hs v hex).1, hraised⟩
    · intro hno
      rw [hraised, raise_of_none p.2 v hno]
  rw [setLimitRangeResourceAfter_eq, if_pos hmem.1]
  exact ⟨one r.Limits, one r.Requests⟩

/-- Witness of C15 as amended: the block declaring `cpu: 1`, `memory: 512`
and `gpu: 2` in requests and limits. -/
theorem setLimitRangeResource_lands_on_ladder_witness :
    blockGpuTwo.declaresMemory ∧
    ∃ out, setLimitRangeResource blockGpuTwo = .ok out ∧
      ∀ p ∈ [(ResourceCPU, cpuTiers), (ResourceMemory, memTiers)], ∀ v,
        (blockGpuTwo.Limits.get? p.1 = some v →
          ((∃ t ∈ p.2, t.Cmp v = 1) → ∃ c ∈ p.2, out.Limits.get? p.1 = some c) ∧
          ((∀ t ∈ p.2, t.Cmp v ≠ 1) → out.Limits.get? p.1 = some v)) ∧
        (blockGpuTwo.Requests.get? p.1 = some v →
          ((∃ t ∈ p.2, t.Cmp v = 1) → ∃ c ∈ p.2, out.Requests.get? p.1 = some c) ∧
          ((∀ t ∈ p.2, t.Cmp v ≠ 1) → out.Requests.get? p.1 = some v)) :=
  ⟨by decide, setLimitRangeResource_lands_on_ladder blockGpuTwo (by decide)⟩

/-- C16: a declared accelerator value is never altered.  On a block that
declares the accelerator kind in its limits or its requests, normalization
leaves the accelerator entry of the limits and of the requests as it was:
in the block the call leaves in memory, whether it returned or panicked,
and so in the block it returns. -/
theorem normalizeBlock_keeps_accelerator (r : ResourceRequirements)
    (h : (r.Limits.get? ResourceNvidiaGPU).isSome ∨ (r.Requests.get? ResourceNvidiaGPU).isSome) :
    checkSetResource (some r) = true ∧
    ((normalizeBlockAfter r).Limits.get? ResourceNvidiaGPU = r.Limits.get? ResourceNvidiaGPU ∧
      (normalizeBlockAfter r).Requests.get? ResourceNvidiaGPU =
        r.Requests.get? ResourceNvidiaGPU) ∧
    (∀ out, normalizeBlock r = .ok out →
      out.Limits.get? ResourceNvidiaGPU = r.Limits.get? ResourceNvidiaGPU ∧
      out.Requests.get? ResourceNvidiaGPU = r.Requests.get? ResourceNvidiaGPU) := by
  have hframe := normalizeBlockAfter_frame r ResourceNvidiaGPU (by decide) (by decide)
  refine ⟨?_, hframe, ?_⟩
  · have hpop : r.Limits.populated ∨ r.Requests.populated := by
      rcases h with h | h
      · exact Or.inl ((populated_iff _).mpr ⟨_, h⟩)
      · exact Or.inr ((populated_iff _).mpr ⟨_, h⟩)
    simpa [checkSetResource, ResourceList.populated] using hpop
  · intro out hout
    rw [← normalizeBlockAfter_of_ok r out hout]
    exact hframe

/-- Witness of C16: the block declaring `gpu: 2`, as the pod of `TestAdmit`
does, is returned with `gpu: 2` in its limits and its requests. -/
theorem normalizeBlock_keeps_accelerator_witness :
    (∃ out, normalizeBlock blockGpuTwo = .ok out ∧
      out.Limits.get? ResourceNvidiaGPU = some ⟨2, 0⟩ ∧
      out.Requests.get? ResourceNvidiaGPU = some ⟨2, 0⟩) ∧
    checkSetResource (some blockGpuTwo) = true ∧
    ((normalizeBlockAfter blockGpuTwo).Limits.get? ResourceNvidiaGPU =
        blockGpuTwo.Limits.get? ResourceNvidiaGPU ∧
      (normalizeBlockAfter blockGpuTwo).Requests.get? ResourceNvidiaGPU =
        blockGpuTwo.Requests.get? ResourceNvidiaGPU) ∧
    (∀ out, normalizeBlock blockGpuTwo = .ok out →
      out.Limits.get? ResourceNvidiaGPU = blockGpuTwo.Limits.get? ResourceNvidiaGPU ∧
      out.Requests.get? ResourceNvidiaGPU = blockGpuTwo.Requests.get? ResourceNvidiaGPU) :=
  ⟨⟨⟨.mk [(ResourceCPU, ⟨2, 0⟩), (ResourceMemory, ⟨1073741824, 0⟩),
          (ResourceNvidiaGPU, ⟨2, 0⟩)],
      .mk [(ResourceCPU, ⟨2, 0⟩), (ResourceMemory, ⟨1073741824, 0⟩),
          (ResourceNvidiaGPU, ⟨2, 0⟩)]⟩, by decide⟩,
    normalizeBlock_keeps_accelerator blockGpuTwo (Or.inl (by decide))⟩

/-- The trigger in the terms of the code: `checkUpdateLimitResource` answers
true exactly when some regular container has, in its limits, an accelerator
entry for which `AsInt64` gives the flag true and a value above zero.  The answer is a function of the
accelerator entries of the limits of the regular containers: requests and
init containers do not bear on it. -/
theorem checkUpdateLimitResource_exact (pod : Pod) :
    (checkUpdateLimitResource pod = true ↔
      ∃ c ∈ pod.Spec.Containers, ∃ v,
        c.Resources.Limits.get? ResourceNvidiaGPU = some v ∧
        v.AsInt64.2 = true ∧ 0 < v.AsInt64.1) ∧
    (∀ other : Pod,
      (other.Spec.Containers.map fun c => c.Resources.Limits.get? ResourceNvidiaGPU) =
        (pod.Spec.Containers.map fun c => c.Resources.Limits.get? ResourceNvidiaGPU) →
      checkUpdateLimitResource other = checkUpdateLimitResource pod) ∧
    (∀ inits : List Container,
      checkUpdateLimitResource { pod with Spec := { pod.Spec with InitContainers := inits } } =
        checkUpdateLimitResource pod) ∧
    (∀ requests : Container → ResourceList,
      checkUpdateLimitResource { pod with Spec := ⟨pod.Spec.InitContainers,
          pod.Spec.Containers.map (fun c =>
            { c with Resources := { c.Resources with Requests := requests c } })⟩ } =
        checkUpdateLimitResource pod) := by
  refine ⟨?_, ?_, ?_, ?_⟩
  · rw [checkUpdateLimitResource_eq, List.any_eq_true]
    constructor
    · rintro ⟨entry, hmem, h⟩
      obtain ⟨c, hc, rfl⟩ := List.mem_map.mp hmem
      cases hg : c.Resources.Limits.get? ResourceNvidiaGPU with
      | none => simp [hg] at h
      | some v =>
        simp only [hg, Bool.and_eq_true, decide_eq_true_eq] at h
        exact ⟨c, hc, v, hg, h.1, h.2⟩
    · rintro ⟨c, hc, v, hg, h1, h2⟩
      refine ⟨some v, List.mem_map.mpr ⟨c, hc, hg⟩, ?_⟩
      simp [h1, h2]
  · intro other h
    rw [checkUpdateLimitResource_eq, checkUpdateLimitResource_eq, h]
  · intro inits
    rfl
  · intro requests
    rw [checkUpdateLimitResource_eq, checkUpdateLimitResource_eq]
    simp only [List.map_map]
    rfl

/-- Counterexample to C17: a pod whose regular container declares the
accelerator limit `1000m`.  The value is the whole number 1, which fits a
64-bit integer and is above zero, yet `checkUpdateLimitResource` answers
false: the quantity is held at the scale `-3`, and `AsInt64` reports no
quantity held at a negative scale as an integer. -/
theorem checkUpdateLimitResource_misses_whole_millis :
    checkUpdateLimitResource podWholeMilliGpu = false ∧
    ¬ (checkUpdateLimitResource podWholeMilliGpu = true ↔
      ∃ c ∈ podWholeMilliGpu.Spec.Containers, ∃ v,
        c.Resources.Limits.get? ResourceNvidiaGPU = some v ∧
        v.representableInt64 ∧ 0 < v.toRat) := by
  refine ⟨by decide, ?_⟩
  intro h
  have hfalse : checkUpdateLimitResource podWholeMilliGpu = false := by decide
  rw [hfalse] at h
  have hone : (⟨1000, -3⟩ : Quantity).toRat = 1 := by
    norm_num [Quantity.toRat]
  exact Bool.false_ne_true (h.mpr
    ⟨⟨"c0", "foo:V0", ⟨.mk [(ResourceNvidiaGPU, ⟨1000, -3⟩)], .nil⟩⟩, by decide,
      ⟨1000, -3⟩, by decide, ⟨1, by decide, by decide, by rw [hone]; norm_num⟩,
      by rw [hone]; norm_num⟩)

/-- C17 as amended: `checkUpdateLimitResource` answers true exactly when
some regular container has, in its limits, an accelerator entry that is
held at a scale of zero or more and denotes a whole number that fits a
64-bit integer and is above zero.  An entry held at a negative scale never
triggers, whatever number it denotes.  The answer is a function of the
accelerator entries of the limits of the regular containers: requests and
init containers do not bear on it. -/
theorem checkUpdateLimitResource_trigger (pod : Pod) :
    (checkUpdateLimitResource pod = true ↔
      ∃ c ∈ pod.Spec.Containers, ∃ v,
        c.Resources.Limits.get? ResourceNvidiaGPU = some v ∧
        0 ≤ v.scale ∧ v.representableInt64 ∧ 0 < v.toRat) ∧
    ((∀ c ∈ pod.Spec.Containers, ∀ v,
        c.Resources.Limits.get? ResourceNvidiaGPU = some v → v.scale < 0) →
      checkUpdateLimitResource pod = false) ∧
    (∀ other : Pod,
      (other.Spec.Containers.map fun c => c.Resources.Limits.get? ResourceNvidiaGPU) =
        (pod.Spec.Containers.map fun c => c.Resources.Limits.get? ResourceNvidiaGPU) →
      checkUpdateLimitResource other = checkUpdateLimitResource pod) ∧
    (∀ inits : List Container,
      checkUpdateLimitResource { pod with Spec := { pod.Spec with InitContainers := inits } } =
        checkUpdateLimitResource pod) ∧
    (∀ requests : Container → ResourceList,
      checkUpdateLimitResource { pod with Spec := ⟨pod.Spec.InitContainers,
          pod.Spec.Containers.map (fun c =>
            { c with Resources := { c.Resources with Requests := requests c } })⟩ } =
        checkUpdateLimitResource pod) := by
  have hiff : checkUpdateLimitResource pod = true ↔
      ∃ c ∈ pod.Spec.Containers, ∃ v,
        c.Resources.Limits.get? ResourceNvidiaGPU = some v ∧
        0 ≤ v.scale ∧ v.representableInt64 ∧ 0 < v.toRat := by
    rw [(checkUpdateLimitResource_exact pod).1]
    constructor
    · rintro ⟨c, hc, v, hg, h⟩
      exact ⟨c, hc, v, hg,
        (isPositiveInt64_iff_representable v).mp ((isPositiveInt64_iff v).mpr h)⟩
    · rintro ⟨c, hc, v, hg, h⟩
      exact ⟨c, hc, v, hg,
        (isPositiveInt64_iff v).mp ((isPositiveInt64_iff_representable v).mpr h)⟩
  refine ⟨hiff, ?_, (checkUpdateLimitResource_exact pod).2⟩
  intro hneg
  cases hres : checkUpdateLimitResource pod with
  | false => rfl
  | true =>
    obtain ⟨c, hc, v, hg, hs, _⟩ := hiff.mp hres
    have := hneg c hc v hg
    omega

/-- C18: a call of `updateLimitResource` that returns gives back the pod
with its init containers replaced and nothing else changed: the regular
containers and their resource blocks are as they were. -/
theorem updateLimitResource_leaves_regular_containers (pod out : Pod)
    (h : updateLimitResource pod = .ok out) :
    out.Spec.Containers = pod.Spec.Containers ∧
    out = { pod with Spec := { pod.Spec with InitContainers := out.Spec.InitContainers } } := by
  unfold updateLimitResource at h
  cases h1 : pod.Spec.InitContainers.mapM updateContainer with
  | error e =>
    simp only [h1, bind, Except.bind] at h
    cases h
  | ok first =>
    cases h2 : first.mapM updateContainer with
    | error e =>
      simp only [h1, h2, bind, Except.bind] at h
      cases h
    | ok second =>
      simp only [h1, h2, bind, Except.bind, pure, Except.pure, Except.ok.injEq] at h
      subst h
      exact ⟨rfl, rfl⟩

/-- Witness of C18: on the pod with an init container declaring
`cpu: 1.5, memory: 128` the call returns, the init container is changed and
the regular container is not. -/
theorem updateLimitResource_leaves_regular_containers_witness :
    ∃ out, updateLimitResource podInitLadder = .ok out ∧
      out.Spec.InitContainers ≠ podInitLadder.Spec.InitContainers ∧
      out.Spec.Containers = podInitLadder.Spec.Containers ∧
      out = { podInitLadder with
        Spec := { podInitLadder.Spec with InitContainers := out.Spec.InitContainers } } :=
  ⟨{ podInitLadder with Spec := { podInitLadder.Spec with InitContainers :=
      [⟨"init", "foo:V1",
        ⟨.mk [(ResourceCPU, ⟨4, 0⟩), (ResourceMemory, ⟨512, 0⟩)], .nil⟩⟩] } },
    by decide, by decide,
    updateLimitResource_leaves_regular_containers podInitLadder _ (by decide)⟩

/-- C19, evaluated at a pod with an init container whose limits declare
`cpu: 1.5` and `memory: 128`: one call of `updateLimitResource` leaves the
CPU limit at `4` and the memory limit at `512`, two tiers up, while the
smallest tier above `1.5` is `2`. -/
theorem updateLimitResource_raises_twice :
    updateLimitResource podInitLadder =
      .ok { podInitLadder with Spec := { podInitLadder.Spec with InitContainers :=
        [⟨"init", "foo:V1",
          ⟨.mk [(ResourceCPU, ⟨4, 0⟩), (ResourceMemory, ⟨512, 0⟩)], .nil⟩⟩] } } ∧
    IsCeiling cpuTiers ⟨15, -1⟩ ⟨2, 0⟩ ∧ IsCeiling memTiers ⟨128, 0⟩ ⟨256, 0⟩ := by
  decide

/-- C20: a declared CPU value at or above the top tier `8`, and a declared
memory value at or above the top tier `1Gi`, is left as declared by
`setLimitRangeResource`, in the limits and in the requests: in the block the
call leaves in memory, whether it returned or panicked, and so in the block
it returns. -/
theorem setLimitRangeResource_keeps_over_ladder (r : ResourceRequirements) (v : Quantity)
    (p : ResourceName × Quantity)
    (hp : p ∈ [(ResourceCPU, (⟨8, 0⟩ : Quantity)), (ResourceMemory, ⟨1073741824, 0⟩)])
    (hge : v.Cmp p.2 ≠ -1) :
    (r.Limits.get? p.1 = some v →
      (setLimitRangeResourceAfter r).Limits.get? p.1 = some v ∧
      ∀ out, setLimitRangeResource r = .ok out → out.Limits.get? p.1 = some v) ∧
    (r.Requests.get? p.1 = some v →
      (setLimitRangeResourceAfter r).Requests.get? p.1 = some v ∧
      ∀ out, setLimitRangeResource r = .ok out → out.Requests.get? p.1 = some v) := by
  obtain ⟨ladder, hk, hno⟩ : ∃ ladder,
      ((p.1 = ResourceCPU ∧ ladder = cpuTiers) ∨ (p.1 = ResourceMemory ∧ ladder = memTiers)) ∧
      ∀ t ∈ ladder, t.Cmp v ≠ 1 := by
    simp only [List.mem_cons, List.mem_singleton, List.not_mem_nil, or_false] at hp
    rcases hp with rfl | rfl
    · exact ⟨cpuTiers, Or.inl ⟨rfl, rfl⟩, no_tier_above cpuTiers ⟨8, 0⟩ v (by decide) hge⟩
    · exact ⟨memTiers, Or.inr ⟨rfl, rfl⟩,
        no_tier_above memTiers ⟨1073741824, 0⟩ v (by decide) hge⟩
  have one : ∀ m : ResourceList, m.get? p.1 = some v →
      (setListAfter cpuTiers memTiers m).get? p.1 = some v := by
    intro m hv
    rw [setListAfter_raised m p.1 ladder hk v hv, raise_of_none ladder v hno]
  have hafter : (r.Limits.get? p.1 = some v →
        (setLimitRangeResourceAfter r).Limits.get? p.1 = some v) ∧
      (r.Requests.get? p.1 = some v →
        (setLimitRangeResourceAfter r).Requests.get? p.1 = some v) := by
    rw [setLimitRangeResourceAfter_eq]
    refine ⟨one r.Limits, ?_⟩
    intro hv
    by_cases hl : r.Limits.populated → (r.Limits.get? ResourceMemory).isSome
    · simp only [if_pos hl]
      exact one r.Requests hv
    · simp only [if_neg hl]
      exact hv
  constructor
  · intro hv
    refine ⟨hafter.1 hv, ?_⟩
    intro out hout
    rw [← setLimitRangeResourceAfter_of_ok r out hout]
    exact hafter.1 hv
  · intro hv
    refine ⟨hafter.2 hv, ?_⟩
    intro out hout
    rw [← setLimitRangeResourceAfter_of_ok r out hout]
    exact hafter.2 hv

/-- Witness of C20: the block declaring the CPU limit `8` and the memory
limit `2Gi` is returned with both as declared. -/
theorem setLimitRangeResource_keeps_over_ladder_witness :
    setLimitRangeResource blockTop = .ok blockTop ∧
    ((⟨8, 0⟩ : Quantity).Cmp ⟨8, 0⟩ ≠ -1 ∧
      (blockTop.Limits.get? ResourceCPU = some ⟨8, 0⟩ →
        (setLimitRangeResourceAfter blockTop).Limits.get? ResourceCPU = some ⟨8, 0⟩ ∧
        ∀ out, setLimitRangeResource blockTop = .ok out →
          out.Limits.get? ResourceCPU = some ⟨8, 0⟩)) ∧
    ((⟨2147483648, 0⟩ : Quantity).Cmp ⟨1073741824, 0⟩ ≠ -1 ∧
      (blockTop.Limits.get? ResourceMemory = some ⟨2147483648, 0⟩ →
        (setLimitRangeResourceAfter blockTop).Limits.get? ResourceMemory =
          some ⟨2147483648, 0⟩ ∧
        ∀ out, setLimitRangeResource blockTop = .ok out →
          out.Limits.get? ResourceMemory = some ⟨2147483648, 0⟩)) :=
  ⟨by decide,
    ⟨by decide, (setLimitRangeResource_keeps_over_ladder blockTop ⟨8, 0⟩
      (ResourceCPU, ⟨8, 0⟩) (by decide) (by decide)).1⟩,
    ⟨by decide, (setLimitRangeResource_keeps_over_ladder blockTop ⟨2147483648, 0⟩
      (ResourceMemory, ⟨1073741824, 0⟩) (by decide) (by decide)).1⟩⟩

/-- C21, evaluated at a block whose limits declare `cpu: 1.5` and no memory
and whose requests declare `cpu: 1.5` and `memory: 128`: the call panics
while it settles the limits, and the CPU request, which is below the top
tier `8`, is left at `1.5`, not strictly greater. -/
theorem setLimitRangeResource_leaves_request_unraised :
    setLimitRangeResource blockCpuOnly =
      .error "cannot parse '128Mem': unable to parse quantity's suffix" ∧
    blockCpuOnly.Requests.get? ResourceCPU = some ⟨15, -1⟩ ∧
    (⟨15, -1⟩ : Quantity).Cmp ⟨8, 0⟩ = -1 ∧
    (setLimitRangeResourceAfter blockCpuOnly).Requests.get? ResourceCPU = some ⟨15, -1⟩ := by
  decide

/-- C22: normalization preserves request at most limit.  Where a block
declares a CPU (memory) request and a CPU (memory) limit and the request is
at most the limit, the request is at most the limit in the block the call
leaves in memory, whether it returned or panicked, and so in the block it
returns. -/
theorem setLimitRangeResource_preserves_order (r : ResourceRequirements) (k : ResourceName)
    (hk : k = ResourceCPU ∨ k = ResourceMemory) (req lim : Quantity)
    (hreq : r.Requests.get? k = some req) (hlim : r.Limits.get? k = some lim)
    (hle : req.Cmp lim ≠ 1) :
    (∃ req1 lim1, (setLimitRangeResourceAfter r).Requests.get? k = some req1 ∧
      (setLimitRangeResourceAfter r).Limits.get? k = some lim1 ∧ req1.Cmp lim1 ≠ 1) ∧
    (∀ out, setLimitRangeResource r = .ok out →
      ∃ req1 lim1, out.Requests.get? k = some req1 ∧ out.Limits.get? k = some lim1 ∧
        req1.Cmp lim1 ≠ 1) := by
  obtain ⟨ladder, hkl⟩ : ∃ ladder,
      (k = ResourceCPU ∧ ladder = cpuTiers) ∨ (k = ResourceMemory ∧ ladder = memTiers) := by
    rcases hk with h | h
    · exact ⟨cpuTiers, Or.inl ⟨h, rfl⟩⟩
    · exact ⟨memTiers, Or.inr ⟨h, rfl⟩⟩
  have hle1 : req.toRat ≤ lim.toRat := (Quantity.Cmp_ne_one_iff _ _).mp hle
  have hafter : ∃ req1 lim1, (setLimitRangeResourceAfter r).Requests.get? k = some req1 ∧
      (setLimitRangeResourceAfter r).Limits.get? k = some lim1 ∧ req1.Cmp lim1 ≠ 1 := by
    rw [setLimitRangeResourceAfter_eq]
    have hl := setListAfter_raised r.Limits k ladder hkl lim hlim
    by_cases hret : r.Limits.populated → (r.Limits.get? ResourceMemory).isSome
    · simp only [if_pos hret]
      exact ⟨_, _, setListAfter_raised r.Requests k ladder hkl req hreq, hl,
        (Quantity.Cmp_ne_one_iff _ _).mpr (raise_mono ladder req lim hle1)⟩
    · simp only [if_neg hret]
      exact ⟨req, _, hreq, hl,
        (Quantity.Cmp_ne_one_iff _ _).mpr (le_trans hle1 (raise_ge ladder lim))⟩
  refine ⟨hafter, ?_⟩
  intro out hout
  rw [← setLimitRangeResourceAfter_of_ok r out hout]
  exact hafter

/-- Witness of C22: the block with CPU request `1.5` and CPU limit `3` is
returned with CPU request `2` and CPU limit `4`. -/
theorem setLimitRangeResource_preserves_order_witness :
    (⟨15, -1⟩ : Quantity).Cmp ⟨3, 0⟩ ≠ 1 ∧
    setLimitRangeResource blockOrdered =
      .ok ⟨.mk [(ResourceCPU, ⟨4, 0⟩), (ResourceMemory, ⟨512, 0⟩)],
           .mk [(ResourceCPU, ⟨2, 0⟩), (ResourceMemory, ⟨128, 0⟩)]⟩ ∧
    (∃ req1 lim1, (setLimitRangeResourceAfter blockOrdered).Requests.get? ResourceCPU = some req1 ∧
      (setLimitRangeResourceAfter blockOrdered).Limits.get? ResourceCPU = some lim1 ∧
      req1.Cmp lim1 ≠ 1) ∧
    (∀ out, setLimitRangeResource blockOrdered = .ok out →
      ∃ req1 lim1, out.Requests.get? ResourceCPU = some req1 ∧
        out.Limits.get? ResourceCPU = some lim1 ∧ req1.Cmp lim1 ≠ 1) :=
  ⟨by decide, by decide,
    setLimitRangeResource_preserves_order blockOrdered ResourceCPU (Or.inl rfl) ⟨15, -1⟩ ⟨3, 0⟩
      (by decide) (by decide) (by decide)⟩

/-- C23, evaluated at a block whose limits declare `cpu: 0.5` and no memory
and whose requests declare `cpu: 0.5` and `memory: 128`: the call panics,
and after four calls the CPU request in memory is still `0.5`, not the top
tier `8`. -/
theorem setLimitRangeResource_four_times_leaves_request :
    setLimitRangeResource blockHalfCpu =
      .error "cannot parse '128Mem': unable to parse quantity's suffix" ∧
    Nat.iterate setLimitRangeResourceAfter 4 blockHalfCpu =
      ⟨.mk [(ResourceCPU, ⟨8, 0⟩)],
       .mk [(ResourceCPU, ⟨5, -1⟩), (ResourceMemory, ⟨128, 0⟩)]⟩ ∧
    (⟨5, -1⟩ : Quantity).Cmp ⟨8, 0⟩ = -1 := by
  decide

/-- C24: `setLimitRangeResource` writes a map only if the map has an entry.
A limits (requests) map that is nil or empty is the same map, nil or empty,
in the block the call leaves in memory and in the block it returns; and no
panic of the call is a write into a nil map. -/
theorem setLimitRangeResource_leaves_empty_maps (r : ResourceRequirements) :
    (¬ r.Limits.populated →
      (setLimitRangeResourceAfter r).Limits = r.Limits ∧
      ∀ out, setLimitRangeResource r = .ok out → out.Limits = r.Limits) ∧
    (¬ r.Requests.populated →
      (setLimitRangeResourceAfter r).Requests = r.Requests ∧
      ∀ out, setLimitRangeResource r = .ok out → out.Requests = r.Requests) ∧
    (∀ e, setLimitRangeResource r = .error e → e ≠ "assignment to entry in nil map") ∧
    (¬ ResourceList.nil.populated ∧ ¬ (ResourceList.mk []).populated) := by
  have hafter : (¬ r.Limits.populated → (setLimitRangeResourceAfter r).Limits = r.Limits) ∧
      (¬ r.Requests.populated → (setLimitRangeResourceAfter r).Requests = r.Requests) := by
    rw [setLimitRangeResourceAfter_eq]
    constructor
    · intro h
      exact setListAfter_of_unpopulated _ _ _ h
    · intro h
      by_cases hl : r.Limits.populated → (r.Limits.get? ResourceMemory).isSome
      · simp only [if_pos hl]
        exact setListAfter_of_unpopulated _ _ _ h
      · simp only [if_neg hl]
  refine ⟨?_, ?_, ?_, ?_⟩
  · intro h
    refine ⟨hafter.1 h, ?_⟩
    intro out hout
    rw [← setLimitRangeResourceAfter_of_ok r out hout]
    exact hafter.1 h
  · intro h
    refine ⟨hafter.2 h, ?_⟩
    intro out hout
    rw [← setLimitRangeResourceAfter_of_ok r out hout]
    exact hafter.2 h
  · intro e he
    rw [setLimitRangeResource_error r e he]
    decide
  · decide

/-- C25, evaluated: the eight tier literals parse, the default memory
literal `128Mem` does not, and normalizing a block with no declaration, or
one with an accelerator limit and nothing else, panics in `MustParse`. -/
theorem MustParse_128Mem_panics :
    (∀ s ∈ tierLiterals, ∃ q, MustParse s = .ok q) ∧
    MustParse "128Mem" = .error "cannot parse '128Mem': unable to parse quantity's suffix" ∧
    normalizeBlock blockBare =
      .error "cannot parse '128Mem': unable to parse quantity's suffix" ∧
    normalizeBlock blockGpuOnly =
      .error "cannot parse '128Mem': unable to parse quantity's suffix" := by
  refine ⟨?_, by decide, by decide, by decide⟩
  intro s hs
  simp only [tierLiterals, List.mem_cons, List.mem_singleton, List.not_mem_nil, or_false] at hs
  rcases hs with rfl | rfl | rfl | rfl | rfl | rfl | rfl | rfl
  · exact ⟨⟨1, 0⟩, by decide⟩
  · exact ⟨⟨2, 0⟩, by decide⟩
  · exact ⟨⟨4, 0⟩, by decide⟩
  · exact ⟨⟨8, 0⟩, by decide⟩
  · exact ⟨⟨128, 0⟩, by decide⟩
  · exact ⟨⟨256, 0⟩, by decide⟩
  · exact ⟨⟨512, 0⟩, by decide⟩
  · exact ⟨⟨1073741824, 0⟩, by decide⟩

/-- C26, evaluated at the block with both maps nil and at the block of
`TestAdmit`: `setDefaultRangeResource` does not return, it panics parsing
`128Mem`, and the block it leaves in memory is the block it was given. -/
theorem setDefaultRangeResource_never_returns :
    setDefaultRangeResource blockBare =
      .error "cannot parse '128Mem': unable to parse quantity's suffix" ∧
    setDefaultRangeResourceAfter blockBare = blockBare ∧
    setDefaultRangeResource blockGpuTwo =
      .error "cannot parse '128Mem': unable to parse quantity's suffix" ∧
    setDefaultRangeResourceAfter blockGpuTwo = blockGpuTwo := by
  decide

/-- C27, evaluated at the block with the limits `gpu: 1` and nothing else:
`setLimitRangeResource` writes the CPU default `1`, then panics parsing the
memory default `128Mem`; the limits it leaves have no memory entry. -/
theorem setLimitRangeResource_panics_on_gpu_only :
    setLimitRangeResource blockGpuOnly =
      .error "cannot parse '128Mem': unable to parse quantity's suffix" ∧
    (setLimitRangeResourceAfter blockGpuOnly).Limits =
      .mk [(ResourceNvidiaGPU, ⟨1, 0⟩), (ResourceCPU, ⟨1, 0⟩)] ∧
    (setLimitRangeResourceAfter blockGpuOnly).Limits.get? ResourceMemory = none := by
  decide

/-- C28: `checkSetResource` answers true exactly when the limits or the
requests of the block have an entry, of whatever kind; a block with both
maps nil or empty, and the nil block, are reported as not set. -/
theorem checkSetResource_iff (r : ResourceRequirements) :
    (checkSetResource (some r) = true ↔
      (∃ k, (r.Limits.get? k).isSome) ∨ (∃ k, (r.Requests.get? k).isSome)) ∧
    ((r.Limits = .nil ∨ r.Limits = .mk []) → (r.Requests = .nil ∨ r.Requests = .mk []) →
      checkSetResource (some r) = false) ∧
    checkSetResource none = false := by
  refine ⟨?_, ?_, rfl⟩
  · rw [← populated_iff, ← populated_iff]
    simp [checkSetResource, ResourceList.populated]
  · intro hl hr
    rcases hl with hl | hl <;> rcases hr with hr | hr <;>
      simp [checkSetResource, hl, hr, ResourceList.len]

end LimitPolicy

/-! ## Properties of the generated conversions -/

namespace v1alpha1

open admissionregistration

theorem convert_ExternalAdmissionHook_eq (src out : ExternalAdmissionHook) :
    Convert_admissionregistration_ExternalAdmissionHook_To_v1alpha1_ExternalAdmissionHook src out =
      ({ src with ClientConfig :=
          { src.ClientConfig with CABundle := some (src.ClientConfig.CABundle.getD []) } },
        none) := by
  obtain ⟨name, ⟨service, bundle⟩, rules, policy⟩ := src
  cases bundle with
  | none => rfl
  | some bytes => rfl

/-- Each of the three conversions that test a slice for nil returns no error
and leaves no nil slice in the field it tests:
`AdmissionHookClientConfig.CABundle`,
`ExternalAdmissionHookConfigurationList.Items` or
`InitializerConfigurationList.Items`.  A nil slice becomes the empty slice,
and any other slice is carried over with its elements in their order, each
element as it was. -/
theorem conversion_leaves_no_nil_slice :
    (∀ src out : AdmissionHookClientConfig,
      let res :=
        autoConvert_admissionregistration_AdmissionHookClientConfig_To_v1alpha1_AdmissionHookClientConfig
          src out
      res.2 = none ∧ res.1.CABundle ≠ none ∧ res.1.Service = src.Service ∧
      (src.CABundle = none → res.1.CABundle = some []) ∧
      (∀ bytes, src.CABundle = some bytes → res.1.CABundle = some bytes)) ∧
    (∀ src out : ExternalAdmissionHookConfigurationList,
      let res :=
        autoConvert_admissionregistration_ExternalAdmissionHookConfigurationList_To_v1alpha1_ExternalAdmissionHookConfigurationList
          src out
      res.2 = none ∧ res.1.Items ≠ none ∧ res.1.ListMeta = src.ListMeta ∧
      (src.Items = none → res.1.Items = some []) ∧
      (∀ items, src.Items = some items → res.1.Items = some items)) ∧
    (∀ src out : InitializerConfigurationList,
      let res :=
        autoConvert_admissionregistration_InitializerConfigurationList_To_v1alpha1_InitializerConfigurationList
          src out
      res.2 = none ∧ res.1.Items ≠ none ∧ res.1.ListMeta = src.ListMeta ∧
      (src.Items = none → res.1.Items = some []) ∧
      (∀ items, src.Items = some items → res.1.Items = some items)) := by
  refine ⟨?_, ?_, ?_⟩
  · intro src out
    obtain ⟨service, bundle⟩ := src
    cases bundle with
    | none =>
      simp [autoConvert_admissionregistration_AdmissionHookClientConfig_To_v1alpha1_AdmissionHookClientConfig,
        Convert_admissionregistration_ServiceReference_To_v1alpha1_ServiceReference,
        autoConvert_admissionregistration_ServiceReference_To_v1alpha1_ServiceReference]
    | some bytes =>
      simp [autoConvert_admissionregistration_AdmissionHookClientConfig_To_v1alpha1_AdmissionHookClientConfig,
        Convert_admissionregistration_ServiceReference_To_v1alpha1_ServiceReference,
        autoConvert_admissionregistration_ServiceReference_To_v1alpha1_ServiceReference]
  · intro src out
    cases hitems : src.Items with
    | none =>
      simp [autoConvert_admissionregistration_ExternalAdmissionHookConfigurationList_To_v1alpha1_ExternalAdmissionHookConfigurationList,
        hitems]
    | some items =>
      simp [autoConvert_admissionregistration_ExternalAdmissionHookConfigurationList_To_v1alpha1_ExternalAdmissionHookConfigurationList,
        hitems]
  · intro src out
    cases hitems : src.Items with
    | none =>
      simp [autoConvert_admissionregistration_InitializerConfigurationList_To_v1alpha1_InitializerConfigurationList,
        hitems]
    | some items =>
      simp [autoConvert_admissionregistration_InitializerConfigurationList_To_v1alpha1_InitializerConfigurationList,
        hitems]

/-- C29, evaluated at a list whose one configuration holds a hook with a nil
`CABundle`.  Converting the list returns no error and carries the
configurations over as they are, so the converted list holds an
`AdmissionHookClientConfig` whose `CABundle` is nil; the same holds of
converting the configuration.  Converting that client configuration on its
own, or the hook that holds it, gives an empty `CABundle`. -/
theorem list_conversion_keeps_nil_bundle :
    (autoConvert_admissionregistration_ExternalAdmissionHookConfigurationList_To_v1alpha1_ExternalAdmissionHookConfigurationList
      listTwoHooks default).2 = none ∧
    (autoConvert_admissionregistration_ExternalAdmissionHookConfigurationList_To_v1alpha1_ExternalAdmissionHookConfigurationList
      listTwoHooks default).1.Items =
        some [{ TypeMeta := ⟨"", ""⟩, ObjectMeta := ⟨"config", ""⟩,
                ExternalAdmissionHooks :=
                  some [{ Name := "hook",
                          ClientConfig := { Service := ⟨"default", "svc"⟩, CABundle := none },
                          Rules := none, FailurePolicy := none },
                        hookWithBundle] }] ∧
    ((autoConvert_admissionregistration_ExternalAdmissionHookConfiguration_To_v1alpha1_ExternalAdmissionHookConfiguration
      configTwoHooks default).1.ExternalAdmissionHooks.map
        fun hooks => hooks.map fun h => h.ClientConfig.CABundle) =
      some [none, some [1, 2, 3]] ∧
    (autoConvert_admissionregistration_AdmissionHookClientConfig_To_v1alpha1_AdmissionHookClientConfig
      hookNilBundle.ClientConfig default).1.CABundle = some [] ∧
    (Convert_admissionregistration_ExternalAdmissionHook_To_v1alpha1_ExternalAdmissionHook
      hookNilBundle default).1.ClientConfig.CABundle = some [] := by
  decide

/-- Converting an internal configuration returns no error and carries its
slice of hooks over as it is.  Converting a hook on its own returns no error
and gives the hook with a nil `CABundle` replaced by the empty slice.  So an
element of the converted slice equals the conversion of the hook on its own
exactly when the `CABundle` of the hook is not nil, and otherwise differs
from it in `CABundle` alone. -/
theorem nested_conversion_agrees_off_nil_bundle (c out : ExternalAdmissionHookConfiguration) :
    (autoConvert_admissionregistration_ExternalAdmissionHookConfiguration_To_v1alpha1_ExternalAdmissionHookConfiguration
      c out).2 = none ∧
    (autoConvert_admissionregistration_ExternalAdmissionHookConfiguration_To_v1alpha1_ExternalAdmissionHookConfiguration
      c out).1.ExternalAdmissionHooks = c.ExternalAdmissionHooks ∧
    ∀ hooks, c.ExternalAdmissionHooks = some hooks → ∀ h ∈ hooks, ∀ out1 : ExternalAdmissionHook,
      let alone :=
        autoConvert_admissionregistration_ExternalAdmissionHook_To_v1alpha1_ExternalAdmissionHook
          h out1
      alone.2 = none ∧
      alone.1 = { h with ClientConfig :=
        { h.ClientConfig with CABundle := some (h.ClientConfig.CABundle.getD []) } } ∧
      (h = alone.1 ↔ h.ClientConfig.CABundle ≠ none) := by
  refine ⟨rfl, rfl, ?_⟩
  intro hooks _ h _ out1
  have heq := convert_ExternalAdmissionHook_eq h out1
  simp only [Convert_admissionregistration_ExternalAdmissionHook_To_v1alpha1_ExternalAdmissionHook]
    at heq
  simp only [heq]
  refine ⟨trivial, trivial, ?_⟩
  obtain ⟨name, ⟨service, bundle⟩, rules, policy⟩ := h
  cases bundle with
  | none => simp
  | some bytes => simp

/-- C30, evaluated at a configuration that holds a hook with a nil
`CABundle`: converting the configuration gives a slice whose first element
has a nil `CABundle`, while converting that hook on its own gives it an
empty `CABundle`; the two are not equal. -/
theorem nested_conversion_keeps_nil_bundle :
    (autoConvert_admissionregistration_ExternalAdmissionHookConfiguration_To_v1alpha1_ExternalAdmissionHookConfiguration
      configTwoHooks default).1.ExternalAdmissionHooks = some [hookNilBundle, hookWithBundle] ∧
    hookNilBundle.ClientConfig.CABundle = none ∧
    (autoConvert_admissionregistration_ExternalAdmissionHook_To_v1alpha1_ExternalAdmissionHook
      hookNilBundle default).1.ClientConfig.CABundle = some [] ∧
    hookNilBundle ≠
      (autoConvert_admissionregistration_ExternalAdmissionHook_To_v1alpha1_ExternalAdmissionHook
        hookNilBundle default).1 := by
  decide

end v1alpha1
